import Mathlib

/-!
# ExecAsUser: launching a program in the interactive user's session

A shallow embedding of `execuser/execuser_windows.go`, `main.go` and
`session_notifications/session_notifications.go`.

Native Windows calls are answered by an `OS` record.  Every answer may depend
on the whole history of calls made so far, so the same call can succeed at one
moment and fail at another.  Each function threads the history (a list of
`Event`s, oldest first) and appends the calls it makes.

Go values are represented as follows: `uintptr`, `windows.Handle` and
`windows.Token` are natural numbers; a Go `error` is `Option String`
(`none` is `nil`, `some m` an error whose text is `m`); a pair
`(value, error)` is a Lean pair; a pointer to the UTF-16 copy of a string is
the string itself and the null pointer is `none`.
-/

namespace ExecAsUser

/-! ## Data model -/

/-- The constant `windows.WTSActive` of `WTS_CONNECTSTATE_CLASS`. -/
def WTSActive : Int := 0

/-- The Go struct `WtsSessionInfo`. -/
structure WtsSessionInfo where
  SessionID : Nat
  WinStationName : Nat
  State : Int
  deriving DecidableEq, Repr

/-- The constant `SwShow`. -/
def SwShow : Nat := 5

/-- The constant `CreateUnicodeEnvironment`, typed `uint16` in the source. -/
def CreateUnicodeEnvironment : Nat := 0x00000400 % 2 ^ 16

/-- The untyped constant `CreateNewConsole`. -/
def CreateNewConsole : Nat := 0x00000010

/-- The fields of `windows.StartupInfo` that matter to a launch; the source
writes `ShowWindow` and `Desktop` and leaves the others at their zero value. -/
structure StartupInfo where
  Cb : Nat
  Desktop : Option String
  Flags : Nat
  ShowWindow : Nat
  deriving DecidableEq, Repr

/-- The zero value of `windows.StartupInfo`. -/
def StartupInfo.zero : StartupInfo :=
  { Cb := 0, Desktop := none, Flags := 0, ShowWindow := 0 }

/-- The arguments of one `CreateProcessAsUserW` call that are not constant
zero in the source (process attributes, thread attributes and the
inherit-handles flag are always 0). -/
structure CreateProcessArgs where
  token : Nat
  applicationName : String
  commandLine : Option String
  creationFlags : Nat
  environment : Nat
  currentDirectory : Option String
  startupInfo : StartupInfo
  deriving DecidableEq, Repr

/-- One observable action: a native call with its arguments and its answer,
or a line written to the log or to standard output.
`DestroyEnvironmentBlock` is the native release of an environment block; no
function of the source issues it. -/
inductive Event where
  | WTSEnumerateSessionsW (returnCode : Nat)
  | WTSGetActiveConsoleSessionId (sessionId : Nat)
  | WTSQueryUserToken (sessionId : Nat) (returnCode : Nat) (token : Nat)
  | DuplicateTokenEx (existing : Nat) (returnCode : Nat) (newToken : Nat)
  | CloseHandle (h : Nat) (err : Option String)
  | CreateEnvironmentBlock (token : Nat) (returnCode : Nat) (env : Nat)
  | DestroyEnvironmentBlock (env : Nat)
  | CreateProcessAsUserW (args : CreateProcessArgs) (returnCode : Nat)
  | log (msg : String)
  | print (ids : List Nat)
  deriving DecidableEq, Repr

/-- The answer of `WTSEnumerateSessionsW`: the return code, the sessions found
in the returned buffer, and the text of the error value of the call. -/
structure EnumAnswer where
  returnCode : Nat
  sessions : List WtsSessionInfo
  err : String

/-- The answer of a native call with one out-parameter: the return code, the
value the out-parameter holds after the call, and the error text. -/
structure OutAnswer where
  returnCode : Nat
  out : Nat
  err : String

/-- The answer of a native call without out-parameter: the value the call
returns and the error text. -/
structure CodeAnswer where
  returnCode : Nat
  err : String

/-- The operating system: one answering function per native procedure, each
given the history of all earlier events. -/
structure OS where
  WTSEnumerateSessionsW : List Event → EnumAnswer
  WTSGetActiveConsoleSessionId : List Event → CodeAnswer
  WTSQueryUserToken : List Event → Nat → OutAnswer
  DuplicateTokenEx : List Event → Nat → OutAnswer
  CloseHandle : List Event → Nat → Option String
  CreateEnvironmentBlock : List Event → Nat → OutAnswer
  CreateProcessAsUserW : List Event → CreateProcessArgs → CodeAnswer

/-- The library function `windows.StringToUTF16Ptr`: it returns the pointer to
the UTF-16 copy of the string and panics (`none`) when the string holds a NUL
character. -/
def StringToUTF16Ptr (s : String) : Option String :=
  if Char.ofNat 0 ∈ s.data then none else some s

/-! ## Session resolution -/

/-- The function `wtsEnumerateSessions`.  The walk over the native buffer is
represented by its result, the list of sessions in the answer. -/
def wtsEnumerateSessions (os : OS) (t : List Event) :
    (List WtsSessionInfo × Option String) × List Event :=
  let a := os.WTSEnumerateSessionsW t
  let t1 := t ++ [Event.WTSEnumerateSessionsW a.returnCode]
  if a.returnCode = 0 then
    (([], some ("call native WTSEnumerateSessionsW: " ++ a.err)), t1)
  else
    ((a.sessions, none), t1)

/-- The loop of `getCurrentUserSessionId` that keeps the ids of the sessions
whose state is active. -/
def activeSessionIds : List WtsSessionInfo → List Nat
  | [] => []
  | s :: rest =>
    if s.State = WTSActive then s.SessionID :: activeSessionIds rest
    else activeSessionIds rest

/-- The second statement of `getCurrentUserSessionId`: the query for the
session attached to the console. -/
def consoleSession (os : OS) (t : List Event) :
    (List Nat × Option String) × List Event :=
  let a := os.WTSGetActiveConsoleSessionId t
  let sessionId := a.returnCode
  let t1 := t ++ [Event.WTSGetActiveConsoleSessionId sessionId]
  if sessionId = 0xFFFFFFFF then
    (([], some ("get current user session token: call native WTSGetActiveConsoleSessionId: "
      ++ a.err)), t1)
  else
    (([sessionId], none), t1)

/-- The function `getCurrentUserSessionId`.  The outer test is `err != nil`,
as in the source, and the inner test repeats it. -/
def getCurrentUserSessionId (os : OS) (t : List Event) :
    (List Nat × Option String) × List Event :=
  let r := wtsEnumerateSessions os t
  let sessionList := r.1.1
  let err := r.1.2
  let t1 := r.2
  if err ≠ none then
    match err with
    | some e => (([], some ("get current user session token: " ++ e)), t1)
    | none =>
      let result := activeSessionIds sessionList
      if result.length > 0 then ((result, none), t1)
      else consoleSession os t1
  else
    consoleSession os t1

/-! ## Token broker -/

/-- The function `duplicateUserTokenFromSessionID`. -/
def duplicateUserTokenFromSessionID (os : OS) (sessionId : Nat) (t : List Event) :
    (Nat × Option String) × List Event :=
  let q := os.WTSQueryUserToken t sessionId
  let t1 := t ++ [Event.WTSQueryUserToken sessionId q.returnCode q.out]
  if q.returnCode = 0 then
    ((0xFFFFFFFF, some ("call native WTSQueryUserToken: " ++ q.err)), t1)
  else
    let impersonationToken := q.out
    let d := os.DuplicateTokenEx t1 impersonationToken
    let t2 := t1 ++ [Event.DuplicateTokenEx impersonationToken d.returnCode d.out]
    if d.returnCode = 0 then
      ((0xFFFFFFFF, some ("call native DuplicateTokenEx: " ++ d.err)), t2)
    else
      let userToken := d.out
      let c := os.CloseHandle t2 impersonationToken
      let t3 := t2 ++ [Event.CloseHandle impersonationToken c]
      match c with
      | some e =>
        ((0xFFFFFFFF, some ("close windows handle used for token duplication: " ++ e)), t3)
      | none => ((userToken, none), t3)

/-! ## Launch pipeline -/

/-- The variables of `startProcessAsCurrentUser` that live across the
iterations of its loop, the history, and whether the run has panicked. -/
structure RunState where
  userToken : Nat
  envInfo : Nat
  startupInfo : StartupInfo
  commandLine : Option String
  workingDir : Option String
  trace : List Event
  panicked : Bool

/-- The value of `creationFlags`: the `uint16` constant expression
`CreateUnicodeEnvironment | CreateNewConsole`, then converted to `uintptr`. -/
def creationFlags : Nat :=
  ((CreateUnicodeEnvironment ||| CreateNewConsole) % 2 ^ 16) % 2 ^ 64

/-- The last stage of one iteration of the loop of
`startProcessAsCurrentUser`, from the assignment of `creationFlags` to the last
statement of the loop body: it fills the startup information, converts the
strings and calls `CreateProcessAsUserW`. -/
def createProcess (os : OS) (appPath cmdLine workDir : String) (s : RunState) : RunState :=
  match StringToUTF16Ptr "winsta0\\default" with
  | none => { s with panicked := true }
  | some desktop =>
    let s3 := { s with
      startupInfo := { s.startupInfo with ShowWindow := SwShow, Desktop := some desktop } }
    match (if cmdLine.length > 0 then StringToUTF16Ptr cmdLine else some cmdLine) with
    | none => { s3 with panicked := true }
    | some cl =>
      let s4 := if cmdLine.length > 0 then { s3 with commandLine := some cl } else s3
      match (if workDir.length > 0 then StringToUTF16Ptr workDir else some workDir) with
      | none => { s4 with panicked := true }
      | some wd =>
        let s5 := if workDir.length > 0 then { s4 with workingDir := some wd } else s4
        match StringToUTF16Ptr appPath with
        | none => { s5 with panicked := true }
        | some app =>
          let args : CreateProcessArgs :=
            { token := s5.userToken,
              applicationName := app,
              commandLine := s5.commandLine,
              creationFlags := creationFlags,
              environment := s5.envInfo,
              currentDirectory := s5.workingDir,
              startupInfo := s5.startupInfo }
          let p := os.CreateProcessAsUserW s5.trace args
          let s6 := { s5 with
            trace := s5.trace ++ [Event.CreateProcessAsUserW args p.returnCode] }
          if p.returnCode = 0 then
            { s6 with trace := s6.trace ++
                [Event.log ("create process as user: " ++ p.err)] }
          else s6

/-- One iteration of the loop of `startProcessAsCurrentUser`: the broker, the
creation of the environment block, and the process-creation stage. -/
def launchSession (os : OS) (appPath cmdLine workDir : String) (sessionId : Nat)
    (s : RunState) : RunState :=
  let b := duplicateUserTokenFromSessionID os sessionId s.trace
  let s1 := { s with userToken := b.1.1, trace := b.2 }
  match b.1.2 with
  | some e =>
    { s1 with trace := s1.trace ++
        [Event.log ("get duplicate user token for current user session: " ++ e)] }
  | none =>
    let a := os.CreateEnvironmentBlock s1.trace s1.userToken
    let s2 := { s1 with
      envInfo := a.out,
      trace := s1.trace ++ [Event.CreateEnvironmentBlock s1.userToken a.returnCode a.out] }
    if a.returnCode = 0 then
      { s2 with trace := s2.trace ++
          [Event.log ("create environment details for process: " ++ a.err)] }
    else
      createProcess os appPath cmdLine workDir s2

/-- The `for ... range listSessionId` loop of `startProcessAsCurrentUser`; a
panic ends the run. -/
def launchLoop (os : OS) (appPath cmdLine workDir : String) :
    List Nat → RunState → RunState
  | [], s => s
  | sessionId :: rest, s =>
    let s1 := launchSession os appPath cmdLine workDir sessionId s
    if s1.panicked then s1 else launchLoop os appPath cmdLine workDir rest s1

/-- The state of `startProcessAsCurrentUser` after its `var` block, started
with history `t`. -/
def RunState.init (t : List Event) : RunState :=
  { userToken := 0, envInfo := 0, startupInfo := StartupInfo.zero,
    commandLine := none, workingDir := none, trace := t, panicked := false }

/-- The function `startProcessAsCurrentUser`. -/
def startProcessAsCurrentUser (os : OS) (appPath cmdLine workDir : String)
    (t : List Event) : RunState :=
  let r := getCurrentUserSessionId os t
  let listSessionId := r.1.1
  let t1 := match r.1.2 with
    | some e => r.2 ++ [Event.log e]
    | none => r.2
  let t2 := t1 ++ [Event.print listSessionId]
  launchLoop os appPath cmdLine workDir listSessionId { RunState.init t2 with trace := t2 }

/-- The function `Run`. -/
def Run (os : OS) (path : String) (t : List Event) : RunState :=
  startProcessAsCurrentUser os path "" "" t

/-! ## Observations on a history -/

/-- The session ids with which the token broker was invoked: the broker opens
with its `WTSQueryUserToken` call and nothing else makes that call. -/
def brokerCalls : List Event → List Nat
  | [] => []
  | Event.WTSQueryUserToken sid _ _ :: rest => sid :: brokerCalls rest
  | _ :: rest => brokerCalls rest

/-- The arguments of the process-creation calls, oldest first. -/
def processCalls : List Event → List CreateProcessArgs
  | [] => []
  | Event.CreateProcessAsUserW args _ :: rest => args :: processCalls rest
  | _ :: rest => processCalls rest

/-- The handles on which a release call (`CloseHandle` or
`DestroyEnvironmentBlock`) was made, oldest first. -/
def releases : List Event → List Nat
  | [] => []
  | Event.CloseHandle h _ :: rest => h :: releases rest
  | Event.DestroyEnvironmentBlock h :: rest => h :: releases rest
  | _ :: rest => releases rest

/-- The impersonation handles whose duplication into a primary token
succeeded, oldest first. -/
def duplicated : List Event → List Nat
  | [] => []
  | Event.DuplicateTokenEx h rc _ :: rest =>
    if rc = 0 then duplicated rest else h :: duplicated rest
  | _ :: rest => duplicated rest

/-- The number of release calls made on handle `h`. -/
def releaseCount (h : Nat) (t : List Event) : Nat :=
  (releases t).count h

/-- The arguments the process-creation stage passes when no string conversion
panics, read off the state at the start of the stage. -/
def launchArgs (app cmd wd : String) (s : RunState) : CreateProcessArgs :=
  { token := s.userToken,
    applicationName := app,
    commandLine := if cmd.length > 0 then some cmd else s.commandLine,
    creationFlags := creationFlags,
    environment := s.envInfo,
    currentDirectory := if wd.length > 0 then some wd else s.workingDir,
    startupInfo :=
      { s.startupInfo with ShowWindow := SwShow, Desktop := some "winsta0\\default" } }

/-- The state in which the process-creation stage ends when no string
conversion panics. -/
def afterCreateProcess (os : OS) (app cmd wd : String) (s : RunState) : RunState :=
  { s with
    startupInfo := (launchArgs app cmd wd s).startupInfo,
    commandLine := (launchArgs app cmd wd s).commandLine,
    workingDir := (launchArgs app cmd wd s).currentDirectory,
    trace := s.trace ++
      Event.CreateProcessAsUserW (launchArgs app cmd wd s)
        (os.CreateProcessAsUserW s.trace (launchArgs app cmd wd s)).returnCode ::
      (if (os.CreateProcessAsUserW s.trace (launchArgs app cmd wd s)).returnCode = 0 then
        [Event.log ("create process as user: " ++
          (os.CreateProcessAsUserW s.trace (launchArgs app cmd wd s)).err)]
      else []) }

/-- The token and the environment block obtained for session `sid` when the
history is `t`: `some` exactly when the broker and the creation of the
environment block both succeed there. -/
def acquire (os : OS) (sid : Nat) (t : List Event) : Option (Nat × Nat) :=
  match (duplicateUserTokenFromSessionID os sid t).1.2 with
  | some _ => none
  | none =>
    if (os.CreateEnvironmentBlock (duplicateUserTokenFromSessionID os sid t).2
        (duplicateUserTokenFromSessionID os sid t).1.1).returnCode = 0 then none
    else
      some ((duplicateUserTokenFromSessionID os sid t).1.1,
        (os.CreateEnvironmentBlock (duplicateUserTokenFromSessionID os sid t).2
          (duplicateUserTokenFromSessionID os sid t).1.1).out)

/-- The sessions of a run of the loop for which the broker and the creation
of the environment block both succeed, each with the token and the
environment block obtained in its own iteration. -/
def launchable (os : OS) (app cmd wd : String) : List Nat → RunState → List (Nat × Nat × Nat)
  | [], _ => []
  | sid :: rest, s =>
    (match acquire os sid s.trace with
      | some (tok, env) => [(sid, tok, env)]
      | none => []) ++
    launchable os app cmd wd rest (launchSession os app cmd wd sid s)

/-- The history with which the loop of `startProcessAsCurrentUser` starts:
the one left by session resolution, then the log line for its error if it
failed, then the printed list of sessions. -/
def loopStart (os : OS) (t : List Event) : List Event :=
  (match (getCurrentUserSessionId os t).1.2 with
    | some e => (getCurrentUserSessionId os t).2 ++ [Event.log e]
    | none => (getCurrentUserSessionId os t).2) ++
  [Event.print (getCurrentUserSessionId os t).1.1]

/-- The token and the environment block of a process-creation call. -/
def tokenAndEnv (a : CreateProcessArgs) : Nat × Nat :=
  (a.token, a.environment)

/-- What every process-creation call of a run started in state `s` is given:
the creation flags, the desktop, the window state, the application name, and
the command line and working directory (those of `s` when the strings are
empty). -/
def GoodCall (app cmd wd : String) (s : RunState) (a : CreateProcessArgs) : Prop :=
  a.creationFlags = 0x410 ∧
  a.startupInfo.Desktop = some "winsta0\\default" ∧
  a.startupInfo.ShowWindow = SwShow ∧
  a.applicationName = app ∧
  a.commandLine = (if cmd.length > 0 then some cmd else s.commandLine) ∧
  a.currentDirectory = (if wd.length > 0 then some wd else s.workingDir)

/-! ## Session notifications and the consumption loop of `main`

Three threads of control run side by side: the native message pump, which
calls `relayMessage`; the goroutine started by `Subscribe`, which forwards
from the internal queue `chanMessages` to the subscriber's channel; and the
goroutine of `main`, which consumes that channel.  A state of the system holds
one program counter per thread, the contents of the two buffered channels and
the set of closed acknowledgment channels.  A step is one channel operation
or one local statement of one thread; a step that would block is not enabled.
-/

/-- The constant `windows.WTS_SESSION_LOGON`. -/
def WTS_SESSION_LOGON : Nat := 0x5

/-- The constant `windows.WTS_SESSION_UNLOCK`. -/
def WTS_SESSION_UNLOCK : Nat := 0x8

/-- The Go struct `Message`; the channel `ChanOk` is named by a number. -/
structure Message where
  UMsg : Nat
  WParam : Nat
  LParam : Nat
  ChanOk : Nat
  deriving DecidableEq, Repr

/-- What the consumption loop of `main` does, in order: a receive from
`changes`, a call of `execuser.Run`, a `close` of an acknowledgment channel. -/
inductive Action where
  | recv (m : Message)
  | run (path : String)
  | close (ch : Nat)
  deriving DecidableEq, Repr

/-- Where the pump stands: outside `relayMessage`; inside it after
`make(chan int)` and before the send on `chanMessages`; or after the send,
blocked on `<-msg.ChanOk`. -/
inductive PumpPc where
  | idle
  | made (m : Message)
  | waiting (m : Message)
  deriving DecidableEq, Repr

/-- Where the goroutine of `Subscribe` stands: at its `select`; after the
receive from `chanMessages` and before the send on `subMessages`; or returned
after the quit case. -/
inductive FwdPc where
  | selecting
  | holding (m : Message)
  | stopped
  deriving DecidableEq, Repr

/-- Where the goroutine of `main` stands: at the receive from `changes`; at
the `switch` on the received message; at `close(c.ChanOk)`; or crashed by a
panic. -/
inductive ConsPc where
  | receiving
  | switching (m : Message)
  | closing (m : Message)
  | crashed
  deriving DecidableEq, Repr

/-- The message the pump has built and not yet sent. -/
def PumpPc.unsent : PumpPc → List Message
  | PumpPc.made m => [m]
  | _ => []

/-- The message the forwarding goroutine holds between its receive and its
send. -/
def FwdPc.held : FwdPc → List Message
  | FwdPc.holding m => [m]
  | _ => []

/-- The message the goroutine of `main` is handling. -/
def ConsPc.held : ConsPc → List Message
  | ConsPc.switching m => [m]
  | ConsPc.closing m => [m]
  | _ => []

/-- A state of the running program.  The fields from `called` on record what
has happened and influence no step: the messages built by `relayMessage` in
call order, those sent on `chanMessages`, those sent on the subscriber's
channel, those received by `main`, those whose handling `main` has finished,
and the actions of `main`. -/
structure Sys where
  pending : List (Nat × Nat × Nat)
  pump : PumpPc
  nextChan : Nat
  chanMessages : List Message
  fwd : FwdPc
  changes : List Message
  cons : ConsPc
  closed : List Nat
  quitClosed : Bool
  osTrace : List Event
  called : List Message
  enqueued : List Message
  delivered : List Message
  received : List Message
  handled : List Message
  actions : List Action

/-- The steps of the three threads, and the closing of `quit` by whoever
holds it. -/
inductive Label where
  | pumpCall
  | pumpSend
  | pumpAck
  | fwdRecv
  | fwdSend
  | fwdQuit
  | consRecv
  | consSwitch
  | consClose
  | closeQuit
  deriving DecidableEq, Repr

/-- The first two statements of `relayMessage`: the message built from the
three `C.uint` arguments, with the channel made for it. -/
def relayMessage_msg (message wParam lParam : Nat) (fresh : Nat) : Message :=
  { UMsg := message % 2 ^ 32, WParam := wParam % 2 ^ 32, LParam := lParam % 2 ^ 32,
    ChanOk := fresh }

/-- Modelled from the spec: the native message pump behind `Start`, whose C
source is not part of the repository.  It is one thread that takes the raw
triples of the operating system one at a time, in order, and calls
`relayMessage` with each, taking the next only when the call has returned.
The step enters `relayMessage` with the next triple and runs it up to the
`make(chan int)`, which yields a channel never used before. -/
def pumpCall (s : Sys) : Option Sys :=
  match s.pump, s.pending with
  | PumpPc.idle, (message, wParam, lParam) :: rest =>
    let msg := relayMessage_msg message wParam lParam s.nextChan
    some { s with
      pending := rest, pump := PumpPc.made msg, nextChan := s.nextChan + 1,
      called := s.called ++ [msg] }
  | _, _ => none

/-- The statement `chanMessages <- msg` of `relayMessage`; the channel has
capacity 1000. -/
def pumpSend (s : Sys) : Option Sys :=
  match s.pump with
  | PumpPc.made msg =>
    if s.chanMessages.length < 1000 then
      some { s with
        chanMessages := s.chanMessages ++ [msg], pump := PumpPc.waiting msg,
        enqueued := s.enqueued ++ [msg] }
    else none
  | _ => none

/-- The statement `<-msg.ChanOk` of `relayMessage` and its return: nothing is
ever sent on the channel, so the receive completes when the channel is
closed. -/
def pumpAck (s : Sys) : Option Sys :=
  match s.pump with
  | PumpPc.waiting msg =>
    if msg.ChanOk ∈ s.closed then some { s with pump := PumpPc.idle } else none
  | _ => none

/-- The case `c := <-chanMessages` of the `select` in `Subscribe`. -/
def fwdRecv (s : Sys) : Option Sys :=
  match s.fwd, s.chanMessages with
  | FwdPc.selecting, c :: rest => some { s with fwd := FwdPc.holding c, chanMessages := rest }
  | _, _ => none

/-- The statement `subMessages <- c` in `Subscribe`; `main` makes the channel
with capacity 100. -/
def fwdSend (s : Sys) : Option Sys :=
  match s.fwd with
  | FwdPc.holding c =>
    if s.changes.length < 100 then
      some { s with
        changes := s.changes ++ [c], fwd := FwdPc.selecting,
        delivered := s.delivered ++ [c] }
    else none
  | _ => none

/-- The case `<-quit` of the `select` in `Subscribe`, with the return that
ends the goroutine; the calls of `Stop` and `CloseHandle` made on the way
touch nothing that a state records. -/
def fwdQuit (s : Sys) : Option Sys :=
  match s.fwd with
  | FwdPc.selecting => if s.quitClosed then some { s with fwd := FwdPc.stopped } else none
  | _ => none

/-- The receive `c := <-changes` in the goroutine of `main`. -/
def consRecv (s : Sys) : Option Sys :=
  match s.cons, s.changes with
  | ConsPc.receiving, c :: rest =>
    some { s with
      cons := ConsPc.switching c, changes := rest,
      received := s.received ++ [c], actions := s.actions ++ [Action.recv c] }
  | _, _ => none

/-- The `switch c.WParam` in the goroutine of `main`: the case
`WTS_SESSION_LOGON` is empty, the case `WTS_SESSION_UNLOCK` calls
`execuser.Run`, and there is no default.  A panic in `Run` ends the program. -/
def consSwitch (os : OS) (s : Sys) : Option Sys :=
  match s.cons with
  | ConsPc.switching c =>
    if c.WParam = WTS_SESSION_LOGON then some { s with cons := ConsPc.closing c }
    else if c.WParam = WTS_SESSION_UNLOCK then
      let r := Run os "a_program.exe" s.osTrace
      some { s with
        osTrace := r.trace,
        actions := s.actions ++ [Action.run "a_program.exe"],
        cons := if r.panicked then ConsPc.crashed else ConsPc.closing c }
    else some { s with cons := ConsPc.closing c }
  | _ => none

/-- The statement `close(c.ChanOk)` in the goroutine of `main`; closing a
closed channel panics. -/
def consClose (s : Sys) : Option Sys :=
  match s.cons with
  | ConsPc.closing c =>
    if c.ChanOk ∈ s.closed then some { s with cons := ConsPc.crashed }
    else
      some { s with
        closed := s.closed ++ [c.ChanOk], cons := ConsPc.receiving,
        handled := s.handled ++ [c], actions := s.actions ++ [Action.close c.ChanOk] }
  | _ => none

/-- The closing of `quit`, which `Subscribe` documents as the way to
unsubscribe; `main` itself never does it. -/
def closeQuit (s : Sys) : Option Sys :=
  if s.quitClosed then none else some { s with quitClosed := true }

/-- One step of the system; `none` when the step is not enabled. -/
def step (os : OS) : Label → Sys → Option Sys
  | Label.pumpCall, s => pumpCall s
  | Label.pumpSend, s => pumpSend s
  | Label.pumpAck, s => pumpAck s
  | Label.fwdRecv, s => fwdRecv s
  | Label.fwdSend, s => fwdSend s
  | Label.fwdQuit, s => fwdQuit s
  | Label.consRecv, s => consRecv s
  | Label.consSwitch, s => consSwitch os s
  | Label.consClose, s => consClose s
  | Label.closeQuit, s => closeQuit s

/-- The system after the steps of a schedule, taken in order. -/
def exec (os : OS) : List Label → Sys → Option Sys
  | [], s => some s
  | l :: rest, s =>
    match step os l s with
    | some s1 => exec os rest s1
    | none => none

/-- The state in which `main` has run `execuser.Run` once, made its channels,
started its goroutine and called `Subscribe`; `pending` are the raw triples
the operating system will hand to the pump. -/
def Sys.init (os : OS) (pending : List (Nat × Nat × Nat)) : Sys :=
  { pending := pending, pump := PumpPc.idle, nextChan := 0, chanMessages := [],
    fwd := FwdPc.selecting, changes := [],
    cons := if (Run os "a_program.exe" []).panicked then ConsPc.crashed else ConsPc.receiving,
    closed := [], quitClosed := false,
    osTrace := (Run os "a_program.exe" []).trace,
    called := [], enqueued := [], delivered := [], received := [], handled := [],
    actions := [] }

/-- What `main` does between the receive of `c` and `close(c.ChanOk)`: one
call of `execuser.Run` for a session unlock, nothing for any other event. -/
def decision (c : Message) : List Action :=
  if c.WParam = WTS_SESSION_UNLOCK then [Action.run "a_program.exe"] else []

/-- The actions of `main` for one event handled to the end. -/
def handling (c : Message) : List Action :=
  [Action.recv c] ++ decision c ++ [Action.close c.ChanOk]

/-- The actions of `main` for the event it is handling now. -/
def inProgress : ConsPc → List Action
  | ConsPc.receiving => []
  | ConsPc.switching c => [Action.recv c]
  | ConsPc.closing c => [Action.recv c] ++ decision c
  | ConsPc.crashed => []

/-- The channels closed by the actions of `main`, oldest first. -/
def closes : List Action → List Nat
  | [] => []
  | Action.close ch :: rest => ch :: closes rest
  | _ :: rest => closes rest

/-- The number of calls of `execuser.Run` among the actions of `main`. -/
def runs : List Action → Nat
  | [] => 0
  | Action.run _ :: rest => runs rest + 1
  | _ :: rest => runs rest

/-- The events for which `main` has gone through its `switch`: besides those
handled to the end, the one whose channel it is about to close. -/
def decided : ConsPc → List Message
  | ConsPc.closing c => [c]
  | _ => []

/-- The history of native calls in which one run of `execuser.Run` is made
for each session unlock among the events `ms`, in order, and nothing is done
for any other event. -/
def pipelineRuns (os : OS) : List Message → List Event → List Event
  | [], t => t
  | c :: rest, t =>
    pipelineRuns os rest
      (if c.WParam = WTS_SESSION_UNLOCK then (Run os "a_program.exe" t).trace else t)

/-- The number of `WTSEnumerateSessionsW` calls in a history.  A run of the
launch pipeline makes this call once, as its first native call, and nothing
else makes it, so this is the number of pipeline runs started. -/
def enumerations : List Event → Nat
  | [] => 0
  | Event.WTSEnumerateSessionsW _ :: rest => enumerations rest + 1
  | _ :: rest => enumerations rest

/-- The number of session-unlock events in a list. -/
def unlocks : List Message → Nat
  | [] => 0
  | c :: rest => (if c.WParam = WTS_SESSION_UNLOCK then 1 else 0) + unlocks rest

/-- A schedule that carries one event from the pump to `main` and back: the
pump builds and sends it, the forwarding goroutine passes it on, `main`
receives it, decides, closes its channel, and the pump returns. -/
def roundTrip : List Label :=
  [Label.pumpCall, Label.pumpSend, Label.fwdRecv, Label.fwdSend, Label.consRecv,
   Label.consSwitch, Label.consClose, Label.pumpAck]

/-- The events sent on the internal queue whose acknowledgment channel is not
closed. -/
def unacknowledged (s : Sys) : List Message :=
  s.enqueued.filter (fun m => decide (m.ChanOk ∉ s.closed))

/-- The invariant of the system. -/
structure Inv (s : Sys) : Prop where
  called_eq : s.called = s.enqueued ++ s.pump.unsent
  enqueued_eq : s.enqueued = s.delivered ++ s.fwd.held ++ s.chanMessages
  delivered_eq : s.delivered = s.received ++ s.changes
  received_eq : s.received = s.handled ++ s.cons.held
  closed_eq : s.closed = s.handled.map Message.ChanOk
  chans : s.called.map Message.ChanOk = List.range s.nextChan
  pump_ok : s.enqueued = s.handled ∨ ∃ m, s.pump = PumpPc.waiting m ∧ s.enqueued = s.handled ++ [m]
  not_crashed : s.cons ≠ ConsPc.crashed
  actions_eq : s.actions = s.handled.flatMap handling ++ inProgress s.cons

/-! ## Concrete operating systems used to evaluate the code -/

/-- An operating system whose calls all succeed.  It reports two sessions,
session 2 being active, and the console session 1; the impersonation handle
is `10 + session`, the duplicated token `20 + handle`, the environment block
`30 + token`. -/
def osAllOk : OS :=
  { WTSEnumerateSessionsW := fun _ =>
      { returnCode := 1,
        sessions := [{ SessionID := 2, WinStationName := 0, State := WTSActive },
                     { SessionID := 3, WinStationName := 0, State := 4 }],
        err := "" },
    WTSGetActiveConsoleSessionId := fun _ => { returnCode := 1, err := "" },
    WTSQueryUserToken := fun _ sid => { returnCode := 1, out := 10 + sid, err := "" },
    DuplicateTokenEx := fun _ h => { returnCode := 1, out := 20 + h, err := "" },
    CloseHandle := fun _ _ => none,
    CreateEnvironmentBlock := fun _ tok => { returnCode := 1, out := 30 + tok, err := "" },
    CreateProcessAsUserW := fun _ _ => { returnCode := 1, err := "" } }

/-- As `osAllOk`, but the enumeration of sessions fails. -/
def osEnumFails : OS :=
  { osAllOk with
    WTSEnumerateSessionsW := fun _ => { returnCode := 0, sessions := [], err := "denied" } }

/-- As `osAllOk`, but the enumeration reports no active session and the
console query answers session 0. -/
def osNoActive : OS :=
  { osAllOk with
    WTSEnumerateSessionsW := fun _ =>
      { returnCode := 1,
        sessions := [{ SessionID := 3, WinStationName := 0, State := 4 }],
        err := "" },
    WTSGetActiveConsoleSessionId := fun _ => { returnCode := 0, err := "" } }

/-- As `osAllOk`, but closing a handle fails. -/
def osCloseFails : OS :=
  { osAllOk with CloseHandle := fun _ _ => some "invalid handle" }

/-- As `osAllOk`, but no user token can be queried for session 1. -/
def osNoTokenFor1 : OS :=
  { osAllOk with
    WTSQueryUserToken := fun _ sid =>
      if sid = 1 then { returnCode := 0, out := 0, err := "no token" }
      else { returnCode := 1, out := 10 + sid, err := "" } }

/-- As `osNoTokenFor1`, with the sessions 1 and 2 both active and session 1
attached to the console. -/
def osTwoActive : OS :=
  { osNoTokenFor1 with
    WTSEnumerateSessionsW := fun _ =>
      { returnCode := 1,
        sessions := [{ SessionID := 1, WinStationName := 0, State := WTSActive },
                     { SessionID := 2, WinStationName := 0, State := WTSActive }],
        err := "" } }

/-- A program path that holds a NUL character. -/
def nulPath : String := String.mk ['a', Char.ofNat 0, 'b']

/-! ## Session resolution: theorems -/

/-- When the enumeration succeeds, `getCurrentUserSessionId` answers from the
console query alone, whatever sessions were enumerated. -/
theorem getCurrentUserSessionId_of_enum_ok (os : OS) (t : List Event)
    (hok : (os.WTSEnumerateSessionsW t).returnCode ≠ 0) :
    getCurrentUserSessionId os t =
      consoleSession os (t ++ [Event.WTSEnumerateSessionsW
        (os.WTSEnumerateSessionsW t).returnCode]) := by
  simp [getCurrentUserSessionId, wtsEnumerateSessions, hok]

/-- When the enumeration fails, `getCurrentUserSessionId` returns its error
after the one enumeration call. -/
theorem getCurrentUserSessionId_of_enum_fail (os : OS) (t : List Event)
    (hfail : (os.WTSEnumerateSessionsW t).returnCode = 0) :
    getCurrentUserSessionId os t =
      (([], some ("get current user session token: " ++
          ("call native WTSEnumerateSessionsW: " ++ (os.WTSEnumerateSessionsW t).err))),
        t ++ [Event.WTSEnumerateSessionsW 0]) := by
  simp [getCurrentUserSessionId, wtsEnumerateSessions, hfail]

/-- C1 (code at the failing input): the enumeration succeeds and reports the
active session 2, the console session is 1; `getCurrentUserSessionId` returns
`[1]`, the console session, and not `[2]`, the active session. -/
theorem C1_active_sessions_not_returned :
    (osAllOk.WTSEnumerateSessionsW []).returnCode ≠ 0 ∧
    activeSessionIds (osAllOk.WTSEnumerateSessionsW []).sessions = [2] ∧
    (getCurrentUserSessionId osAllOk []).1 = ([1], none) := by
  decide

/-- C2 (counterexample): the enumeration fails and the console query would
answer the genuine session 1; `getCurrentUserSessionId` returns an error and
not `[1]`, and the console query is not made. -/
theorem C2_counterexample :
    (osEnumFails.WTSEnumerateSessionsW []).returnCode = 0 ∧
    (osEnumFails.WTSGetActiveConsoleSessionId [Event.WTSEnumerateSessionsW 0]).returnCode = 1 ∧
    (getCurrentUserSessionId osEnumFails []).1 ≠ ([1], none) ∧
    (getCurrentUserSessionId osEnumFails []).1.2 ≠ none ∧
    (getCurrentUserSessionId osEnumFails []).2 = [Event.WTSEnumerateSessionsW 0] := by
  decide

/-- C2 (amended): for every failure of the native session enumeration,
`getCurrentUserSessionId` fails: it returns no session and an error that
carries the enumeration error, and it makes no call besides the enumeration
(the console query is not consulted). -/
theorem C2_enum_failure_is_returned (os : OS) (t : List Event)
    (hfail : (os.WTSEnumerateSessionsW t).returnCode = 0) :
    (getCurrentUserSessionId os t).1.1 = [] ∧
    (getCurrentUserSessionId os t).1.2 =
      some ("get current user session token: " ++
        ("call native WTSEnumerateSessionsW: " ++ (os.WTSEnumerateSessionsW t).err)) ∧
    (getCurrentUserSessionId os t).2 = t ++ [Event.WTSEnumerateSessionsW 0] := by
  rw [getCurrentUserSessionId_of_enum_fail os t hfail]
  exact ⟨rfl, rfl, rfl⟩

/-- Witness of `C2_enum_failure_is_returned` at `osEnumFails`. -/
theorem C2_enum_failure_is_returned_witness :
    (osEnumFails.WTSEnumerateSessionsW []).returnCode = 0 ∧
    (getCurrentUserSessionId osEnumFails []).1.1 = [] ∧
    (getCurrentUserSessionId osEnumFails []).1.2 =
      some ("get current user session token: " ++
        ("call native WTSEnumerateSessionsW: " ++ (osEnumFails.WTSEnumerateSessionsW []).err)) ∧
    (getCurrentUserSessionId osEnumFails []).2 = [] ++ [Event.WTSEnumerateSessionsW 0] :=
  ⟨by decide, C2_enum_failure_is_returned osEnumFails [] (by decide)⟩

/-- C3: whenever the enumeration succeeds and contains no active session,
`getCurrentUserSessionId` makes the console query after the enumeration and
uses its answer `c`: it returns an error if and only if `c` is the sentinel
`0xFFFFFFFF`, and otherwise returns exactly `[c]` without error (also for
`c = 0`). -/
theorem C3_no_active_uses_console (os : OS) (t : List Event)
    (hok : (os.WTSEnumerateSessionsW t).returnCode ≠ 0)
    (hnone : ∀ s ∈ (os.WTSEnumerateSessionsW t).sessions, s.State ≠ WTSActive) :
    (getCurrentUserSessionId os t).2 =
      t ++ [Event.WTSEnumerateSessionsW (os.WTSEnumerateSessionsW t).returnCode] ++
        [Event.WTSGetActiveConsoleSessionId
          (os.WTSGetActiveConsoleSessionId
            (t ++ [Event.WTSEnumerateSessionsW (os.WTSEnumerateSessionsW t).returnCode])).returnCode] ∧
    ((getCurrentUserSessionId os t).1.2 ≠ none ↔
      (os.WTSGetActiveConsoleSessionId
        (t ++ [Event.WTSEnumerateSessionsW (os.WTSEnumerateSessionsW t).returnCode])).returnCode
        = 0xFFFFFFFF) ∧
    ((os.WTSGetActiveConsoleSessionId
        (t ++ [Event.WTSEnumerateSessionsW (os.WTSEnumerateSessionsW t).returnCode])).returnCode
        ≠ 0xFFFFFFFF →
      (getCurrentUserSessionId os t).1 =
        ([(os.WTSGetActiveConsoleSessionId
          (t ++ [Event.WTSEnumerateSessionsW (os.WTSEnumerateSessionsW t).returnCode])).returnCode],
         none)) := by
  have _ := hnone
  rw [getCurrentUserSessionId_of_enum_ok os t hok]
  unfold consoleSession
  by_cases hc : (os.WTSGetActiveConsoleSessionId
      (t ++ [Event.WTSEnumerateSessionsW (os.WTSEnumerateSessionsW t).returnCode])).returnCode
      = 0xFFFFFFFF
  · simp [hc]
  · simp [hc]

/-- Witness of `C3_no_active_uses_console` at `osNoActive`, where the console
query answers session 0. -/
theorem C3_no_active_uses_console_witness :
    (getCurrentUserSessionId osNoActive []).1 = ([0], none) :=
  (C3_no_active_uses_console osNoActive [] (by decide) (by decide)).2.2 (by decide)

/-! ## Observations: how they distribute over a history -/

theorem brokerCalls_append (t u : List Event) :
    brokerCalls (t ++ u) = brokerCalls t ++ brokerCalls u := by
  induction t with
  | nil => rfl
  | cons e t ih => cases e <;> simp [brokerCalls, ih]

theorem processCalls_append (t u : List Event) :
    processCalls (t ++ u) = processCalls t ++ processCalls u := by
  induction t with
  | nil => rfl
  | cons e t ih => cases e <;> simp [processCalls, ih]

theorem releases_append (t u : List Event) :
    releases (t ++ u) = releases t ++ releases u := by
  induction t with
  | nil => rfl
  | cons e t ih => cases e <;> simp [releases, ih]

theorem duplicated_append (t u : List Event) :
    duplicated (t ++ u) = duplicated t ++ duplicated u := by
  induction t with
  | nil => rfl
  | cons e t ih =>
    cases e <;> simp [duplicated, ih]
    split <;> simp

/-! ## Token broker: theorems -/

/-- The three error texts of the broker differ, whatever the operating system
reports. -/
theorem broker_errors_distinct (x y z : String) :
    "call native WTSQueryUserToken: " ++ x ≠ "call native DuplicateTokenEx: " ++ y ∧
    "call native WTSQueryUserToken: " ++ x ≠
      "close windows handle used for token duplication: " ++ z ∧
    "call native DuplicateTokenEx: " ++ y ≠
      "close windows handle used for token duplication: " ++ z := by
  refine ⟨?_, ?_, ?_⟩ <;> intro h <;>
    have h1 := congrArg (fun s : String => s.data.take 13) h <;>
    simp [String.data_append, List.take_append_of_le_length] at h1

/-- C7 (counterexample): the user-token query and the duplication both succeed
and still `duplicateUserTokenFromSessionID` fails, because closing the
impersonation handle failed: a third failure case. -/
theorem C7_counterexample :
    (osCloseFails.WTSQueryUserToken [] 1).returnCode ≠ 0 ∧
    (osCloseFails.DuplicateTokenEx [Event.WTSQueryUserToken 1 1 11] 11).returnCode ≠ 0 ∧
    (duplicateUserTokenFromSessionID osCloseFails 1 []).1 =
      (0xFFFFFFFF,
        some "close windows handle used for token duplication: invalid handle") := by
  decide

/-- C7 (amended): `duplicateUserTokenFromSessionID` fails in exactly three
cases, with three different error texts: the user-token query fails (then
neither a duplication nor a close is attempted), the duplication fails (then
no close is attempted), or closing the impersonation handle fails.  When all
three calls succeed it returns the duplicated token without error, and the
impersonation handle has been closed exactly once. -/
theorem C7_broker_outcomes (os : OS) (sid : Nat) (t : List Event) :
    let q := os.WTSQueryUserToken t sid
    let t1 := t ++ [Event.WTSQueryUserToken sid q.returnCode q.out]
    let d := os.DuplicateTokenEx t1 q.out
    let t2 := t1 ++ [Event.DuplicateTokenEx q.out d.returnCode d.out]
    let c := os.CloseHandle t2 q.out
    let r := duplicateUserTokenFromSessionID os sid t
    (q.returnCode = 0 →
      r = ((0xFFFFFFFF, some ("call native WTSQueryUserToken: " ++ q.err)), t1)) ∧
    (q.returnCode ≠ 0 → d.returnCode = 0 →
      r = ((0xFFFFFFFF, some ("call native DuplicateTokenEx: " ++ d.err)), t2)) ∧
    (q.returnCode ≠ 0 → d.returnCode ≠ 0 → ∀ e, c = some e →
      r = ((0xFFFFFFFF, some ("close windows handle used for token duplication: " ++ e)),
           t2 ++ [Event.CloseHandle q.out (some e)])) ∧
    (q.returnCode ≠ 0 → d.returnCode ≠ 0 → c = none →
      r = ((d.out, none), t2 ++ [Event.CloseHandle q.out none]) ∧
      releases r.2 = releases t ++ [q.out]) ∧
    (r.1.2 ≠ none ↔ (q.returnCode = 0 ∨ d.returnCode = 0 ∨ c ≠ none)) ∧
    (∀ x y z : String,
      "call native WTSQueryUserToken: " ++ x ≠ "call native DuplicateTokenEx: " ++ y ∧
      "call native WTSQueryUserToken: " ++ x ≠
        "close windows handle used for token duplication: " ++ z ∧
      "call native DuplicateTokenEx: " ++ y ≠
        "close windows handle used for token duplication: " ++ z) := by
  intro q t1 d t2 c r
  have hr : r =
      if q.returnCode = 0 then
        ((0xFFFFFFFF, some ("call native WTSQueryUserToken: " ++ q.err)), t1)
      else if d.returnCode = 0 then
        ((0xFFFFFFFF, some ("call native DuplicateTokenEx: " ++ d.err)), t2)
      else
        match c with
        | some e =>
          ((0xFFFFFFFF, some ("close windows handle used for token duplication: " ++ e)),
            t2 ++ [Event.CloseHandle q.out c])
        | none => ((d.out, none), t2 ++ [Event.CloseHandle q.out c]) := rfl
  refine ⟨?_, ?_, ?_, ?_, ?_, broker_errors_distinct⟩
  · intro hq
    rw [hr, if_pos hq]
  · intro hq hd
    rw [hr, if_neg hq, if_pos hd]
  · intro hq hd e hc
    rw [hr, if_neg hq, if_neg hd, hc]
  · intro hq hd hc
    rw [hr, if_neg hq, if_neg hd, hc]
    refine ⟨rfl, ?_⟩
    simp [t2, t1, releases_append, releases]
  · rw [hr]
    by_cases hq : q.returnCode = 0
    · simp [hq]
    · by_cases hd : d.returnCode = 0
      · simp [hq, hd]
      · cases hc : c with
        | none => simp [hq, hd]
        | some e => simp [hq, hd]

/-- The history after the broker, whatever its outcome. -/
theorem broker_brokerCalls (os : OS) (sid : Nat) (t : List Event) :
    brokerCalls (duplicateUserTokenFromSessionID os sid t).2 = brokerCalls t ++ [sid] := by
  unfold duplicateUserTokenFromSessionID
  simp only []
  split
  · simp [brokerCalls_append, brokerCalls]
  · split
    · simp [brokerCalls_append, brokerCalls]
    · split <;> simp [brokerCalls_append, brokerCalls]

theorem broker_processCalls (os : OS) (sid : Nat) (t : List Event) :
    processCalls (duplicateUserTokenFromSessionID os sid t).2 = processCalls t := by
  unfold duplicateUserTokenFromSessionID
  simp only []
  split
  · simp [processCalls_append, processCalls]
  · split
    · simp [processCalls_append, processCalls]
    · split <;> simp [processCalls_append, processCalls]

theorem broker_releases (os : OS) (sid : Nat) (t : List Event) :
    ∃ hs, releases (duplicateUserTokenFromSessionID os sid t).2 = releases t ++ hs ∧
      duplicated (duplicateUserTokenFromSessionID os sid t).2 = duplicated t ++ hs := by
  unfold duplicateUserTokenFromSessionID
  simp only []
  split
  · exact ⟨[], by simp [releases_append, releases, duplicated_append, duplicated]⟩
  · split
    · refine ⟨[], ?_⟩
      simp [releases_append, releases, duplicated_append, duplicated, *]
    · refine ⟨[(os.WTSQueryUserToken t sid).out], ?_⟩
      split <;> simp [releases_append, releases, duplicated_append, duplicated, *]

/-! ## Launch pipeline: theorems -/

/-- The desktop name holds no NUL character. -/
theorem desktop_ptr : StringToUTF16Ptr "winsta0\\default" = some "winsta0\\default" := by
  decide

theorem StringToUTF16Ptr_some {s x : String} (h : StringToUTF16Ptr s = some x) : x = s := by
  unfold StringToUTF16Ptr at h
  split at h
  · cases h
  · exact (Option.some.inj h).symm

theorem StringToUTF16Ptr_of_no_nul {s : String} (h : Char.ofNat 0 ∉ s.data) :
    StringToUTF16Ptr s = some s := by
  simp [StringToUTF16Ptr, h]

theorem optional_ptr_some {s x : String}
    (h : (if s.length > 0 then StringToUTF16Ptr s else some s) = some x) : x = s := by
  split at h
  · exact StringToUTF16Ptr_some h
  · exact (Option.some.inj h).symm

/-- The process-creation stage either panics before any call, leaving the
history as it was, or ends in `afterCreateProcess`. -/
theorem createProcess_cases (os : OS) (app cmd wd : String) (s : RunState) :
    ((createProcess os app cmd wd s).panicked = true ∧
      (createProcess os app cmd wd s).trace = s.trace) ∨
    createProcess os app cmd wd s = afterCreateProcess os app cmd wd s := by
  unfold createProcess
  simp only [desktop_ptr]
  split
  · left; simp
  · rename_i cl hcl
    have e1 := optional_ptr_some hcl
    subst e1
    split
    · left
      split <;> simp
    · rename_i w hw
      have e2 := optional_ptr_some hw
      subst e2
      split
      · left
        split <;> split <;> simp
      · rename_i a ha
        have e3 := StringToUTF16Ptr_some ha
        subst e3
        right
        by_cases h1 : cl.length > 0 <;> by_cases h2 : w.length > 0 <;>
          by_cases h3 : (os.CreateProcessAsUserW s.trace (launchArgs a cl w s)).returnCode = 0 <;>
          simp [afterCreateProcess, launchArgs, h1, h2] at h3 ⊢ <;>
          simp [h3]

theorem createProcess_of_no_nul (os : OS) (app cmd wd : String) (s : RunState)
    (happ : Char.ofNat 0 ∉ app.data) (hcmd : Char.ofNat 0 ∉ cmd.data)
    (hwd : Char.ofNat 0 ∉ wd.data) :
    createProcess os app cmd wd s = afterCreateProcess os app cmd wd s := by
  unfold createProcess
  simp only [desktop_ptr, StringToUTF16Ptr_of_no_nul happ, StringToUTF16Ptr_of_no_nul hcmd,
    StringToUTF16Ptr_of_no_nul hwd, ite_self]
  by_cases h1 : cmd.length > 0 <;> by_cases h2 : wd.length > 0 <;>
    by_cases h3 : (os.CreateProcessAsUserW s.trace (launchArgs app cmd wd s)).returnCode = 0 <;>
    simp [afterCreateProcess, launchArgs, h1, h2] at h3 ⊢ <;>
    simp [h3]

theorem afterCreateProcess_brokerCalls (os : OS) (app cmd wd : String) (s : RunState) :
    brokerCalls (afterCreateProcess os app cmd wd s).trace = brokerCalls s.trace := by
  unfold afterCreateProcess
  split <;> simp [brokerCalls_append, brokerCalls]

theorem afterCreateProcess_releases (os : OS) (app cmd wd : String) (s : RunState) :
    releases (afterCreateProcess os app cmd wd s).trace = releases s.trace ∧
    duplicated (afterCreateProcess os app cmd wd s).trace = duplicated s.trace := by
  unfold afterCreateProcess
  split <;> simp [releases_append, releases, duplicated_append, duplicated]

theorem afterCreateProcess_processCalls (os : OS) (app cmd wd : String) (s : RunState) :
    processCalls (afterCreateProcess os app cmd wd s).trace =
      processCalls s.trace ++ [launchArgs app cmd wd s] := by
  unfold afterCreateProcess
  split <;> simp [processCalls_append, processCalls]

theorem createProcess_brokerCalls (os : OS) (app cmd wd : String) (s : RunState) :
    brokerCalls (createProcess os app cmd wd s).trace = brokerCalls s.trace := by
  rcases createProcess_cases os app cmd wd s with ⟨_, h⟩ | h
  · rw [h]
  · rw [h, afterCreateProcess_brokerCalls]

theorem createProcess_releases (os : OS) (app cmd wd : String) (s : RunState) :
    releases (createProcess os app cmd wd s).trace = releases s.trace ∧
    duplicated (createProcess os app cmd wd s).trace = duplicated s.trace := by
  rcases createProcess_cases os app cmd wd s with ⟨_, h⟩ | h
  · rw [h]; exact ⟨rfl, rfl⟩
  · rw [h]; exact afterCreateProcess_releases os app cmd wd s

theorem createProcess_processCalls (os : OS) (app cmd wd : String) (s : RunState) :
    ∃ calls, processCalls (createProcess os app cmd wd s).trace = processCalls s.trace ++ calls ∧
      ∀ a ∈ calls, a = launchArgs app cmd wd s := by
  rcases createProcess_cases os app cmd wd s with ⟨_, h⟩ | h
  · exact ⟨[], by rw [h]; simp, by simp⟩
  · exact ⟨[launchArgs app cmd wd s], by rw [h, afterCreateProcess_processCalls], by simp⟩

/-- One iteration invokes the broker once, with its session, whatever
happens in the iteration. -/
theorem launchSession_brokerCalls (os : OS) (app cmd wd : String) (sid : Nat)
    (s : RunState) :
    brokerCalls (launchSession os app cmd wd sid s).trace = brokerCalls s.trace ++ [sid] := by
  unfold launchSession
  simp only []
  split
  · simp [brokerCalls_append, brokerCalls, broker_brokerCalls]
  · split
    · simp [brokerCalls_append, brokerCalls, broker_brokerCalls]
    · rw [createProcess_brokerCalls]
      simp [brokerCalls_append, brokerCalls, broker_brokerCalls]

/-- The release calls of one iteration are the broker's: one on each
impersonation handle whose duplication succeeded. -/
theorem launchSession_releases (os : OS) (app cmd wd : String) (sid : Nat) (s : RunState) :
    ∃ hs, releases (launchSession os app cmd wd sid s).trace = releases s.trace ++ hs ∧
      duplicated (launchSession os app cmd wd sid s).trace = duplicated s.trace ++ hs := by
  obtain ⟨hs, h1, h2⟩ := broker_releases os sid s.trace
  refine ⟨hs, ?_⟩
  unfold launchSession
  simp only []
  split
  · simp [releases_append, releases, duplicated_append, duplicated, h1, h2]
  · split
    · simp [releases_append, releases, duplicated_append, duplicated, h1, h2]
    · rw [(createProcess_releases _ _ _ _ _).1, (createProcess_releases _ _ _ _ _).2]
      simp [releases_append, releases, duplicated_append, duplicated, h1, h2]

theorem creationFlags_eq : creationFlags = 0x410 := by decide

theorem launchArgs_good (app cmd wd : String) (s : RunState) :
    GoodCall app cmd wd s (launchArgs app cmd wd s) := by
  simp [GoodCall, launchArgs, creationFlags_eq]

theorem createProcess_pointers (os : OS) (app cmd wd : String) (s : RunState) :
    (cmd.length = 0 → (createProcess os app cmd wd s).commandLine = s.commandLine) ∧
    (wd.length = 0 → (createProcess os app cmd wd s).workingDir = s.workingDir) := by
  unfold createProcess
  simp only [desktop_ptr]
  constructor <;> intro h <;> simp only [h] <;> repeat' split
  all_goals simp_all

theorem launchSession_pointers (os : OS) (app cmd wd : String) (sid : Nat) (s : RunState) :
    (cmd.length = 0 → (launchSession os app cmd wd sid s).commandLine = s.commandLine) ∧
    (wd.length = 0 → (launchSession os app cmd wd sid s).workingDir = s.workingDir) := by
  unfold launchSession
  simp only []
  split
  · simp
  · split
    · simp
    · constructor <;> intro h
      · rw [(createProcess_pointers _ _ _ _ _).1 h]
      · rw [(createProcess_pointers _ _ _ _ _).2 h]

theorem GoodCall_of_pointers {app cmd wd : String} {s s1 : RunState} {a : CreateProcessArgs}
    (hc : cmd.length = 0 → s1.commandLine = s.commandLine)
    (hw : wd.length = 0 → s1.workingDir = s.workingDir)
    (h : GoodCall app cmd wd s1 a) : GoodCall app cmd wd s a := by
  obtain ⟨h1, h2, h3, h4, h5, h6⟩ := h
  refine ⟨h1, h2, h3, h4, ?_, ?_⟩
  · by_cases hl : cmd.length > 0
    · simpa [hl] using h5
    · have hz : cmd.length = 0 := by omega
      simpa [hl, hc hz] using h5
  · by_cases hl : wd.length > 0
    · simpa [hl] using h6
    · have hz : wd.length = 0 := by omega
      simpa [hl, hw hz] using h6

theorem launchSession_processCalls (os : OS) (app cmd wd : String) (sid : Nat)
    (s : RunState) :
    ∃ calls, processCalls (launchSession os app cmd wd sid s).trace
        = processCalls s.trace ++ calls ∧
      ∀ a ∈ calls, GoodCall app cmd wd s a := by
  unfold launchSession
  simp only []
  split
  · exact ⟨[], by simp [processCalls_append, processCalls, broker_processCalls]⟩
  · split
    · exact ⟨[], by simp [processCalls_append, processCalls, broker_processCalls]⟩
    · obtain ⟨calls, h1, h2⟩ := createProcess_processCalls os app cmd wd
        { s with
          userToken := (duplicateUserTokenFromSessionID os sid s.trace).1.1,
          envInfo := (os.CreateEnvironmentBlock (duplicateUserTokenFromSessionID os sid s.trace).2
            (duplicateUserTokenFromSessionID os sid s.trace).1.1).out,
          trace := (duplicateUserTokenFromSessionID os sid s.trace).2 ++
            [Event.CreateEnvironmentBlock (duplicateUserTokenFromSessionID os sid s.trace).1.1
              (os.CreateEnvironmentBlock (duplicateUserTokenFromSessionID os sid s.trace).2
                (duplicateUserTokenFromSessionID os sid s.trace).1.1).returnCode
              (os.CreateEnvironmentBlock (duplicateUserTokenFromSessionID os sid s.trace).2
                (duplicateUserTokenFromSessionID os sid s.trace).1.1).out] }
      refine ⟨calls, ?_, ?_⟩
      · rw [h1]
        simp [processCalls_append, processCalls, broker_processCalls]
      · intro a ha
        rw [h2 a ha]
        exact GoodCall_of_pointers (fun _ => rfl) (fun _ => rfl) (launchArgs_good _ _ _ _)

theorem launchLoop_processCalls (os : OS) (app cmd wd : String) (ids : List Nat) :
    ∀ s : RunState, ∃ calls,
      processCalls (launchLoop os app cmd wd ids s).trace = processCalls s.trace ++ calls ∧
      ∀ a ∈ calls, GoodCall app cmd wd s a := by
  induction ids with
  | nil => intro s; exact ⟨[], by simp [launchLoop]⟩
  | cons sid rest ih =>
    intro s
    obtain ⟨c1, h1, g1⟩ := launchSession_processCalls os app cmd wd sid s
    unfold launchLoop
    simp only []
    split
    · exact ⟨c1, h1, g1⟩
    · obtain ⟨c2, h2, g2⟩ := ih (launchSession os app cmd wd sid s)
      refine ⟨c1 ++ c2, by rw [h2, h1, List.append_assoc], ?_⟩
      intro a ha
      rcases List.mem_append.1 ha with ha | ha
      · exact g1 a ha
      · exact GoodCall_of_pointers (launchSession_pointers os app cmd wd sid s).1
          (launchSession_pointers os app cmd wd sid s).2 (g2 a ha)

theorem launchLoop_releases (os : OS) (app cmd wd : String) (ids : List Nat) :
    ∀ s : RunState, ∃ hs,
      releases (launchLoop os app cmd wd ids s).trace = releases s.trace ++ hs ∧
      duplicated (launchLoop os app cmd wd ids s).trace = duplicated s.trace ++ hs := by
  induction ids with
  | nil => intro s; exact ⟨[], by simp [launchLoop]⟩
  | cons sid rest ih =>
    intro s
    obtain ⟨c1, h1, g1⟩ := launchSession_releases os app cmd wd sid s
    unfold launchLoop
    simp only []
    split
    · exact ⟨c1, h1, g1⟩
    · obtain ⟨c2, h2, g2⟩ := ih (launchSession os app cmd wd sid s)
      exact ⟨c1 ++ c2, by rw [h2, h1, List.append_assoc], by rw [g2, g1, List.append_assoc]⟩

/-- Session resolution makes no broker call, no process-creation call and no
release call. -/
theorem resolve_observations (os : OS) (t : List Event) :
    brokerCalls (getCurrentUserSessionId os t).2 = brokerCalls t ∧
    processCalls (getCurrentUserSessionId os t).2 = processCalls t ∧
    releases (getCurrentUserSessionId os t).2 = releases t ∧
    duplicated (getCurrentUserSessionId os t).2 = duplicated t := by
  by_cases hok : (os.WTSEnumerateSessionsW t).returnCode = 0
  · rw [getCurrentUserSessionId_of_enum_fail os t hok]
    simp [brokerCalls_append, brokerCalls, processCalls_append, processCalls,
      releases_append, releases, duplicated_append, duplicated]
  · rw [getCurrentUserSessionId_of_enum_ok os t hok]
    unfold consoleSession
    simp only []
    split <;>
    simp [brokerCalls_append, brokerCalls, processCalls_append, processCalls,
      releases_append, releases, duplicated_append, duplicated]

/-- Session resolution returns no session with its error, and one session
without. -/
theorem resolve_ids (os : OS) (t : List Event) :
    ((getCurrentUserSessionId os t).1.2 ≠ none ∧ (getCurrentUserSessionId os t).1.1 = []) ∨
    ((getCurrentUserSessionId os t).1.2 = none ∧ ∃ c, (getCurrentUserSessionId os t).1.1 = [c]) := by
  by_cases hok : (os.WTSEnumerateSessionsW t).returnCode = 0
  · rw [getCurrentUserSessionId_of_enum_fail os t hok]
    left; simp
  · rw [getCurrentUserSessionId_of_enum_ok os t hok]
    unfold consoleSession
    simp only []
    split
    · left; simp
    · right; simp

/-- The history with which the loop of `startProcessAsCurrentUser` starts. -/
theorem start_eq (os : OS) (app cmd wd : String) (t : List Event) :
    ∃ t2, startProcessAsCurrentUser os app cmd wd t =
        launchLoop os app cmd wd (getCurrentUserSessionId os t).1.1 (RunState.init t2) ∧
      brokerCalls t2 = brokerCalls t ∧ processCalls t2 = processCalls t ∧
      releases t2 = releases t ∧ duplicated t2 = duplicated t := by
  obtain ⟨h1, h2, h3, h4⟩ := resolve_observations os t
  unfold startProcessAsCurrentUser
  simp only []
  refine ⟨_, rfl, ?_⟩
  split <;>
  simp [brokerCalls_append, brokerCalls, processCalls_append, processCalls,
      releases_append, releases, duplicated_append, duplicated, h1, h2, h3, h4]

theorem launchLoop_brokerCalls_of_not_panicked (os : OS) (app cmd wd : String)
    (ids : List Nat) :
    ∀ s : RunState, (launchLoop os app cmd wd ids s).panicked = false →
      brokerCalls (launchLoop os app cmd wd ids s).trace = brokerCalls s.trace ++ ids := by
  induction ids with
  | nil => intro s _; simp [launchLoop]
  | cons sid rest ih =>
    intro s
    unfold launchLoop
    simp only []
    split
    · rename_i hp
      intro h
      rw [hp] at h
      cases h
    · intro h
      rw [ih _ h, launchSession_brokerCalls]
      simp

/-- With strings free of NUL, one iteration never panics and creates a process
exactly when the broker and the environment block both succeed, with the
token and the block of this iteration. -/
theorem launchSession_of_no_nul (os : OS) (app cmd wd : String) (sid : Nat) (s : RunState)
    (happ : Char.ofNat 0 ∉ app.data) (hcmd : Char.ofNat 0 ∉ cmd.data)
    (hwd : Char.ofNat 0 ∉ wd.data) :
    (launchSession os app cmd wd sid s).panicked = s.panicked ∧
    (processCalls (launchSession os app cmd wd sid s).trace).map tokenAndEnv =
      (processCalls s.trace).map tokenAndEnv ++
        (match acquire os sid s.trace with
          | some (tok, env) => [(tok, env)]
          | none => []) := by
  unfold launchSession acquire
  simp only []
  split
  · simp [processCalls_append, processCalls, broker_processCalls]
  · split
    · simp [processCalls_append, processCalls, broker_processCalls]
    · rw [createProcess_of_no_nul os app cmd wd _ happ hcmd hwd,
        afterCreateProcess_processCalls]
      simp [afterCreateProcess, launchArgs, tokenAndEnv, processCalls_append, processCalls,
        broker_processCalls]

theorem launchLoop_of_no_nul (os : OS) (app cmd wd : String)
    (happ : Char.ofNat 0 ∉ app.data) (hcmd : Char.ofNat 0 ∉ cmd.data)
    (hwd : Char.ofNat 0 ∉ wd.data) (ids : List Nat) :
    ∀ s : RunState, s.panicked = false →
      (launchLoop os app cmd wd ids s).panicked = false ∧
      (processCalls (launchLoop os app cmd wd ids s).trace).map tokenAndEnv =
        (processCalls s.trace).map tokenAndEnv ++
          (launchable os app cmd wd ids s).map (fun x => x.2) := by
  induction ids with
  | nil => intro s hs; simp [launchLoop, launchable, hs]
  | cons sid rest ih =>
    intro s hs
    obtain ⟨hp, hc⟩ := launchSession_of_no_nul os app cmd wd sid s happ hcmd hwd
    rw [hs] at hp
    obtain ⟨ip, ic⟩ := ih (launchSession os app cmd wd sid s) hp
    unfold launchLoop launchable
    simp only [hp]
    refine ⟨by simpa using ip, ?_⟩
    simp only [Bool.false_eq_true, if_false]
    rw [ic, hc]
    cases acquire os sid s.trace with
    | none => simp
    | some p => simp

theorem count_eq_of_not_mem_append (h : Nat) (xs hs : List Nat) (hh : h ∉ hs) :
    (xs ++ hs).count h = xs.count h := by
  rw [List.count_append, List.count_eq_zero_of_not_mem hh, Nat.add_zero]

/-- C4 (counterexample): every call succeeds; the run obtains the user token
31 and the environment block 61 for session 1, creates the process, and
returns with no release call on either: the release counts are 0, not 1. -/
theorem C4_counterexample :
    (duplicateUserTokenFromSessionID osAllOk 1
      [Event.WTSEnumerateSessionsW 1, Event.WTSGetActiveConsoleSessionId 1, Event.print [1]]).1
      = (31, none) ∧
    Event.CreateEnvironmentBlock 31 1 61 ∈ (Run osAllOk "a_program.exe" []).trace ∧
    (processCalls (Run osAllOk "a_program.exe" []).trace).map tokenAndEnv = [(31, 61)] ∧
    releaseCount 31 (Run osAllOk "a_program.exe" []).trace = 0 ∧
    releaseCount 61 (Run osAllOk "a_program.exe" []).trace = 0 ∧
    releases (Run osAllOk "a_program.exe" []).trace = [11] := by
  decide

/-- C4 (amended): a run of `startProcessAsCurrentUser` releases no user token
and no environment block.  Its release calls are exactly the broker's: one
`CloseHandle` on each intermediate impersonation handle whose duplication
succeeded, in order; every other handle receives no release call during the
run, for every combination of successes and failures of the stages. -/
theorem C4_only_impersonation_handles_released (os : OS) (app cmd wd : String)
    (t : List Event) :
    ∃ hs,
      releases (startProcessAsCurrentUser os app cmd wd t).trace = releases t ++ hs ∧
      duplicated (startProcessAsCurrentUser os app cmd wd t).trace = duplicated t ++ hs ∧
      ∀ h, h ∉ hs →
        releaseCount h (startProcessAsCurrentUser os app cmd wd t).trace = releaseCount h t := by
  obtain ⟨t2, he, _, _, h3, h4⟩ := start_eq os app cmd wd t
  obtain ⟨hs, r1, r2⟩ := launchLoop_releases os app cmd wd
    (getCurrentUserSessionId os t).1.1 (RunState.init t2)
  refine ⟨hs, ?_, ?_, ?_⟩
  · rw [he, r1]; simp [RunState.init, h3]
  · rw [he, r2]; simp [RunState.init, h4]
  · intro h hh
    unfold releaseCount
    rw [he, r1]
    simp only [RunState.init, h3]
    exact count_eq_of_not_mem_append h (releases t) hs hh

/-- C5: in one run of `startProcessAsCurrentUser` the token broker is invoked
exactly once per session id that session resolution returned, in that order
and with that id; when session resolution fails the broker is not invoked,
no process is created and the run returns normally.  For any list of
sessions, a run of the loop that does not panic invokes the broker once per
element in list order, whatever the outcomes of the stages. -/
theorem C5_one_broker_call_per_session (os : OS) (app cmd wd : String) (t : List Event) :
    brokerCalls (startProcessAsCurrentUser os app cmd wd t).trace =
      brokerCalls t ++ (getCurrentUserSessionId os t).1.1 ∧
    ((getCurrentUserSessionId os t).1.2 ≠ none →
      brokerCalls (startProcessAsCurrentUser os app cmd wd t).trace = brokerCalls t ∧
      processCalls (startProcessAsCurrentUser os app cmd wd t).trace = processCalls t ∧
      (startProcessAsCurrentUser os app cmd wd t).panicked = false) ∧
    (∀ (ids : List Nat) (s : RunState),
      (launchLoop os app cmd wd ids s).panicked = false →
      brokerCalls (launchLoop os app cmd wd ids s).trace = brokerCalls s.trace ++ ids) := by
  obtain ⟨t2, he, h1, h2, _, _⟩ := start_eq os app cmd wd t
  refine ⟨?_, ?_, fun ids s => launchLoop_brokerCalls_of_not_panicked os app cmd wd ids s⟩
  · rcases resolve_ids os t with ⟨_, hnil⟩ | ⟨_, c, hc⟩
    · rw [he, hnil]; simp [launchLoop, RunState.init, h1]
    · rw [he, hc]
      have hl : launchLoop os app cmd wd [c] (RunState.init t2) =
          launchSession os app cmd wd c (RunState.init t2) := by
        simp [launchLoop]
      rw [hl, launchSession_brokerCalls]
      simp [RunState.init, h1]
  · intro herr
    rcases resolve_ids os t with ⟨_, hnil⟩ | ⟨hok, _⟩
    · rw [he, hnil]
      simp [launchLoop, RunState.init, h1, h2]
    · exact absurd hok herr

/-- A run of `startProcessAsCurrentUser` is its loop over the sessions that
session resolution returned, started with the history `loopStart`. -/
theorem start_loop (os : OS) (app cmd wd : String) (t : List Event) :
    startProcessAsCurrentUser os app cmd wd t =
      launchLoop os app cmd wd (getCurrentUserSessionId os t).1.1
        (RunState.init (loopStart os t)) := rfl

theorem loopStart_observations (os : OS) (t : List Event) :
    brokerCalls (loopStart os t) = brokerCalls t ∧
    processCalls (loopStart os t) = processCalls t := by
  obtain ⟨h1, h2, _, _⟩ := resolve_observations os t
  unfold loopStart
  split <;>
  simp [brokerCalls_append, brokerCalls, processCalls_append, processCalls, h1, h2]

/-- C6 (counterexample): two runs of `startProcessAsCurrentUser` with every
native call succeeding unless said otherwise.  In the first the program path
holds a NUL character: the broker and the environment block succeed for
session 1 (token 31, block 61), the conversion of the path panics, and no
process-creation call is made; over the sessions 1 and 2 the loop stops in
the first iteration.  In the second the sessions 1 and 2 are both active,
session 1 is at the console and has no user token, and every stage would
succeed for session 2: the run attempts session 1 alone and creates no
process. -/
theorem C6_counterexample :
    (acquire osAllOk 1 (loopStart osAllOk []) = some (31, 61) ∧
      processCalls (startProcessAsCurrentUser osAllOk nulPath "" "" []).trace = [] ∧
      (startProcessAsCurrentUser osAllOk nulPath "" "" []).panicked = true ∧
      acquire osAllOk 1 [] = some (31, 61) ∧
      processCalls (launchLoop osAllOk nulPath "" "" [1, 2] (RunState.init [])).trace = [] ∧
      brokerCalls (launchLoop osAllOk nulPath "" "" [1, 2] (RunState.init [])).trace = [1]) ∧
    (activeSessionIds (osTwoActive.WTSEnumerateSessionsW []).sessions = [1, 2] ∧
      (duplicateUserTokenFromSessionID osTwoActive 1 (loopStart osTwoActive [])).1.2 ≠ none ∧
      acquire osTwoActive 2
        (launchSession osTwoActive "a_program.exe" "" "" 1
          (RunState.init (loopStart osTwoActive []))).trace = some (32, 62) ∧
      (getCurrentUserSessionId osTwoActive []).1 = ([1], none) ∧
      brokerCalls (startProcessAsCurrentUser osTwoActive "a_program.exe" "" "" []).trace = [1] ∧
      processCalls (startProcessAsCurrentUser osTwoActive "a_program.exe" "" "" []).trace = [] ∧
      (startProcessAsCurrentUser osTwoActive "a_program.exe" "" "" []).panicked = false) := by
  decide

/-- C6 (amended): when the program path, the command line and the working
directory hold no NUL character, a run of `startProcessAsCurrentUser` does not
panic, attempts every session that session resolution returned to it, in
order, and makes the process-creation call exactly once for each of them for
which the broker and the environment block both succeeded and for no other,
each call with the token and the block obtained in that session's own
iteration.  The same holds of the loop over any list of sessions from any
state: a failure at any stage for one session, process creation included,
does not stop the later ones; with sessions A, B where the broker fails for A
and the broker and the environment block succeed for B, the one call made
carries B's token and block. -/
theorem C6_process_created_per_acquired_session (os : OS) (app cmd wd : String)
    (happ : Char.ofNat 0 ∉ app.data) (hcmd : Char.ofNat 0 ∉ cmd.data)
    (hwd : Char.ofNat 0 ∉ wd.data) (t : List Event) :
    ((startProcessAsCurrentUser os app cmd wd t).panicked = false ∧
      brokerCalls (startProcessAsCurrentUser os app cmd wd t).trace =
        brokerCalls t ++ (getCurrentUserSessionId os t).1.1 ∧
      (processCalls (startProcessAsCurrentUser os app cmd wd t).trace).map tokenAndEnv =
        (processCalls t).map tokenAndEnv ++
          (launchable os app cmd wd (getCurrentUserSessionId os t).1.1
            (RunState.init (loopStart os t))).map (fun x => x.2) ∧
      (∀ c tok env, (getCurrentUserSessionId os t).1.1 = [c] →
        acquire os c (loopStart os t) = some (tok, env) →
        (processCalls (startProcessAsCurrentUser os app cmd wd t).trace).map tokenAndEnv =
          (processCalls t).map tokenAndEnv ++ [(tok, env)]) ∧
      (∀ c, (getCurrentUserSessionId os t).1.1 = [c] →
        acquire os c (loopStart os t) = none →
        processCalls (startProcessAsCurrentUser os app cmd wd t).trace = processCalls t) ∧
      ((getCurrentUserSessionId os t).1.1 = [] →
        processCalls (startProcessAsCurrentUser os app cmd wd t).trace = processCalls t)) ∧
    (∀ (ids : List Nat) (s : RunState), s.panicked = false →
      (launchLoop os app cmd wd ids s).panicked = false ∧
      brokerCalls (launchLoop os app cmd wd ids s).trace = brokerCalls s.trace ++ ids ∧
      (processCalls (launchLoop os app cmd wd ids s).trace).map tokenAndEnv =
        (processCalls s.trace).map tokenAndEnv ++
          (launchable os app cmd wd ids s).map (fun x => x.2) ∧
      (∀ A B tok env,
        (duplicateUserTokenFromSessionID os A s.trace).1.2 ≠ none →
        acquire os B (launchSession os app cmd wd A s).trace = some (tok, env) →
        (processCalls (launchLoop os app cmd wd [A, B] s).trace).map tokenAndEnv =
          (processCalls s.trace).map tokenAndEnv ++ [(tok, env)])) := by
  have hloop : ∀ (ids : List Nat) (s : RunState), s.panicked = false →
      (launchLoop os app cmd wd ids s).panicked = false ∧
      brokerCalls (launchLoop os app cmd wd ids s).trace = brokerCalls s.trace ++ ids ∧
      (processCalls (launchLoop os app cmd wd ids s).trace).map tokenAndEnv =
        (processCalls s.trace).map tokenAndEnv ++
          (launchable os app cmd wd ids s).map (fun x => x.2) := by
    intro ids s hs
    obtain ⟨hp, hc⟩ := launchLoop_of_no_nul os app cmd wd happ hcmd hwd ids s hs
    exact ⟨hp, launchLoop_brokerCalls_of_not_panicked os app cmd wd ids s hp, hc⟩
  obtain ⟨lb, lp⟩ := loopStart_observations os t
  obtain ⟨rp, rb, rc⟩ := hloop (getCurrentUserSessionId os t).1.1
    (RunState.init (loopStart os t)) rfl
  have rb2 : brokerCalls (startProcessAsCurrentUser os app cmd wd t).trace =
      brokerCalls t ++ (getCurrentUserSessionId os t).1.1 := by
    rw [start_loop, rb]; simp [RunState.init, lb]
  have rc2 : (processCalls (startProcessAsCurrentUser os app cmd wd t).trace).map tokenAndEnv =
      (processCalls t).map tokenAndEnv ++
        (launchable os app cmd wd (getCurrentUserSessionId os t).1.1
          (RunState.init (loopStart os t))).map (fun x => x.2) := by
    rw [start_loop, rc]; simp [RunState.init, lp]
  have hnone : ∀ ids : List Nat,
      (launchable os app cmd wd ids (RunState.init (loopStart os t))).map (fun x => x.2) = [] →
      (getCurrentUserSessionId os t).1.1 = ids →
      processCalls (startProcessAsCurrentUser os app cmd wd t).trace = processCalls t := by
    intro ids hl hids
    obtain ⟨calls, hc, _⟩ := launchLoop_processCalls os app cmd wd
      (getCurrentUserSessionId os t).1.1 (RunState.init (loopStart os t))
    have hm := rc2
    rw [start_loop, hc, hids, hl] at hm
    simp only [RunState.init, lp, List.map_append, List.append_nil] at hm
    have hcalls : calls = [] := by
      have hlen := congrArg List.length hm
      simp at hlen
      exact hlen
    rw [start_loop, hc, hcalls]
    simp [RunState.init, lp]
  refine ⟨⟨by rw [start_loop]; exact rp, rb2, rc2, ?_, ?_, ?_⟩, ?_⟩
  · intro c tok env hids hacq
    rw [rc2, hids]
    simp [launchable, RunState.init, hacq]
  · intro c hids hacq
    refine hnone [c] ?_ hids
    simp [launchable, RunState.init, hacq]
  · intro hids
    exact hnone [] (by simp [launchable]) hids
  · intro ids s hs
    obtain ⟨hp, hb, hc⟩ := hloop ids s hs
    refine ⟨hp, hb, hc, ?_⟩
    intro A B tok env hA hB
    rw [(hloop [A, B] s hs).2.2]
    have hnoneA : acquire os A s.trace = none := by
      unfold acquire
      split
      · rfl
      · rename_i h; exact absurd h hA
    simp [launchable, hnoneA, hB]

/-- Witness of `C6_process_created_per_acquired_session`: with every native
call succeeding, the run resolves session 1 and creates one process, with
the token 31 and the block 61 of that session; and in the loop over sessions
1 and 2 where no token can be queried for session 1, the one process created
carries the token 32 and the block 62 of session 2. -/
theorem C6_process_created_per_acquired_session_witness :
    (processCalls (startProcessAsCurrentUser osAllOk "a_program.exe" "" "" []).trace).map
        tokenAndEnv = [(31, 61)] ∧
    (processCalls (launchLoop osNoTokenFor1 "a_program.exe" "" "" [1, 2]
      (RunState.init [])).trace).map tokenAndEnv = [(32, 62)] :=
  ⟨by
    simpa [processCalls] using
      (C6_process_created_per_acquired_session osAllOk "a_program.exe" "" ""
        (by decide) (by decide) (by decide) []).1.2.2.2.1 1 31 61 (by decide) (by decide),
   by
    simpa [RunState.init, processCalls] using
      ((C6_process_created_per_acquired_session osNoTokenFor1 "a_program.exe" "" ""
        (by decide) (by decide) (by decide) []).2 [1, 2] (RunState.init []) rfl).2.2.2
        1 2 32 62 (by decide) (by decide)⟩

/-- C9: every process-creation call issued by `startProcessAsCurrentUser` has
creation flags `0x410`, which is `CREATE_NEW_CONSOLE | CREATE_UNICODE_ENVIRONMENT`
with nothing lost to the 16-bit type, targets the desktop `winsta0\default`
and sets the window state `SwShow`, with the program path as application
name; and the calls issued by `Run path` have a null command line and a null
working directory. -/
theorem C9_process_creation_arguments :
    (CreateUnicodeEnvironment = 0x400 ∧ CreateNewConsole = 0x10 ∧
      creationFlags = 0x400 ||| 0x10 ∧ creationFlags = 0x410) ∧
    (∀ (os : OS) (app cmd wd : String) (t : List Event), ∃ calls,
      processCalls (startProcessAsCurrentUser os app cmd wd t).trace
        = processCalls t ++ calls ∧
      ∀ a ∈ calls,
        a.creationFlags = 0x410 ∧
        a.startupInfo.Desktop = some "winsta0\\default" ∧
        a.startupInfo.ShowWindow = SwShow ∧
        a.applicationName = app) ∧
    (∀ (os : OS) (path : String) (t : List Event), ∃ calls,
      processCalls (Run os path t).trace = processCalls t ++ calls ∧
      ∀ a ∈ calls,
        a.applicationName = path ∧ a.commandLine = none ∧ a.currentDirectory = none) := by
  refine ⟨by decide, ?_, ?_⟩
  · intro os app cmd wd t
    obtain ⟨t2, he, _, h2, _, _⟩ := start_eq os app cmd wd t
    obtain ⟨calls, hc, hg⟩ := launchLoop_processCalls os app cmd wd
      (getCurrentUserSessionId os t).1.1 (RunState.init t2)
    refine ⟨calls, by rw [he, hc]; simp [RunState.init, h2], ?_⟩
    intro a ha
    obtain ⟨g1, g2, g3, g4, _, _⟩ := hg a ha
    exact ⟨g1, g2, g3, g4⟩
  · intro os path t
    obtain ⟨t2, he, _, h2, _, _⟩ := start_eq os path "" "" t
    obtain ⟨calls, hc, hg⟩ := launchLoop_processCalls os path "" ""
      (getCurrentUserSessionId os t).1.1 (RunState.init t2)
    refine ⟨calls, by unfold Run; rw [he, hc]; simp [RunState.init, h2], ?_⟩
    intro a ha
    obtain ⟨_, _, _, g4, g5, g6⟩ := hg a ha
    refine ⟨g4, ?_, ?_⟩
    · simpa [RunState.init] using g5
    · simpa [RunState.init] using g6

/-- The calls of C9 exist: with every native call succeeding, `Run` issues one
process-creation call, with these arguments. -/
theorem Run_osAllOk_call :
    processCalls (Run osAllOk "a_program.exe" []).trace =
      [{ token := 31, applicationName := "a_program.exe", commandLine := none,
         creationFlags := 0x410, environment := 61, currentDirectory := none,
         startupInfo := { Cb := 0, Desktop := some "winsta0\\default", Flags := 0,
                          ShowWindow := 5 } }] := by
  decide

/-! ## Session notifications and `main`: theorems -/

/-- The run of `execuser.Run` that `main` makes never panics: its path holds
no NUL character. -/
theorem Run_main_not_panicked (os : OS) (t : List Event) :
    (Run os "a_program.exe" t).panicked = false := by
  obtain ⟨t2, he, _⟩ := start_eq os "a_program.exe" "" "" t
  unfold Run
  rw [he]
  exact (launchLoop_of_no_nul os "a_program.exe" "" "" (by decide) (by decide) (by decide)
    _ (RunState.init t2) rfl).1

theorem Inv_init (os : OS) (pending : List (Nat × Nat × Nat)) : Inv (Sys.init os pending) := by
  constructor <;> simp [Sys.init, PumpPc.unsent, FwdPc.held, ConsPc.held, Run_main_not_panicked,
    inProgress]

theorem Inv.pump_not_waiting {s : Sys} (h : Inv s) (hp : ∀ m, s.pump ≠ PumpPc.waiting m) :
    s.enqueued = s.handled := by
  rcases h.pump_ok with h1 | ⟨m, hm, _⟩
  · exact h1
  · exact absurd hm (hp m)

theorem pumpCall_inv {s s1 : Sys} (h : Inv s) (hs : pumpCall s = some s1) : Inv s1 := by
  unfold pumpCall at hs
  split at hs
  · rename_i message wParam lParam rest hp hpend
    cases hs
    have hen : s.enqueued = s.handled := h.pump_not_waiting (by simp [hp])
    have hc := h.called_eq
    rw [hp] at hc
    constructor
    · simp [PumpPc.unsent, hc]
    · exact h.enqueued_eq
    · exact h.delivered_eq
    · exact h.received_eq
    · exact h.closed_eq
    · simp [h.chans, List.range_succ, relayMessage_msg]
    · exact Or.inl hen
    · exact h.not_crashed
    · exact h.actions_eq
  · cases hs

/-- Every message built so far sits in exactly one place. -/
theorem Inv.called_decomp {s : Sys} (h : Inv s) :
    s.called = s.handled ++ s.cons.held ++ s.changes ++ s.fwd.held ++ s.chanMessages
      ++ s.pump.unsent := by
  rw [h.called_eq, h.enqueued_eq, h.delivered_eq, h.received_eq]

theorem Inv.nodup {s : Sys} (h : Inv s) : (s.called.map Message.ChanOk).Nodup := by
  rw [h.chans]
  exact List.nodup_range _

/-- The acknowledgment channel of a message that is enqueued and not yet
handled is open. -/
theorem Inv.last_open {s : Sys} (h : Inv s) {m : Message} {rest : List Message}
    (hc : s.called = s.handled ++ m :: rest) : m.ChanOk ∉ s.closed := by
  have hn := h.nodup
  rw [hc, List.map_append, List.map_cons] at hn
  rw [h.closed_eq]
  intro hmem
  exact (List.nodup_append.1 hn).2.2 hmem (List.mem_cons_self _ _)

theorem pumpSend_inv {s s1 : Sys} (h : Inv s) (hs : pumpSend s = some s1) : Inv s1 := by
  unfold pumpSend at hs
  split at hs
  · rename_i msg hp
    split at hs
    · cases hs
      have hen : s.enqueued = s.handled := h.pump_not_waiting (by simp [hp])
      have hc := h.called_eq
      rw [hp] at hc
      constructor
      · simpa [PumpPc.unsent] using hc
      · simp [h.enqueued_eq]
      · exact h.delivered_eq
      · exact h.received_eq
      · exact h.closed_eq
      · exact h.chans
      · exact Or.inr ⟨msg, rfl, by simp [hen]⟩
      · exact h.not_crashed
      · exact h.actions_eq
    · cases hs
  · cases hs

theorem pumpAck_inv {s s1 : Sys} (h : Inv s) (hs : pumpAck s = some s1) : Inv s1 := by
  unfold pumpAck at hs
  split at hs
  · rename_i msg hp
    split at hs
    · rename_i hclosed
      cases hs
      have hc := h.called_eq
      rw [hp] at hc
      have hen : s.enqueued = s.handled := by
        rcases h.pump_ok with h1 | ⟨m, hm, he⟩
        · exact h1
        · rw [hp] at hm
          cases hm
          have hcall : s.called = s.handled ++ msg :: [] := by
            rw [hc, he]; simp [PumpPc.unsent]
          exact absurd hclosed (h.last_open hcall)
      constructor
      · simpa [PumpPc.unsent] using hc
      · exact h.enqueued_eq
      · exact h.delivered_eq
      · exact h.received_eq
      · exact h.closed_eq
      · exact h.chans
      · exact Or.inl hen
      · exact h.not_crashed
      · exact h.actions_eq
    · cases hs
  · cases hs

theorem fwdRecv_inv {s s1 : Sys} (h : Inv s) (hs : fwdRecv s = some s1) : Inv s1 := by
  unfold fwdRecv at hs
  split at hs
  · rename_i c rest hf hq
    cases hs
    have he := h.enqueued_eq
    rw [hf, hq] at he
    constructor
    · exact h.called_eq
    · simpa [FwdPc.held] using he
    · exact h.delivered_eq
    · exact h.received_eq
    · exact h.closed_eq
    · exact h.chans
    · exact h.pump_ok
    · exact h.not_crashed
    · exact h.actions_eq
  · cases hs

theorem fwdSend_inv {s s1 : Sys} (h : Inv s) (hs : fwdSend s = some s1) : Inv s1 := by
  unfold fwdSend at hs
  split at hs
  · rename_i c hf
    split at hs
    · cases hs
      have he := h.enqueued_eq
      rw [hf] at he
      constructor
      · exact h.called_eq
      · simpa [FwdPc.held] using he
      · simp [h.delivered_eq]
      · exact h.received_eq
      · exact h.closed_eq
      · exact h.chans
      · exact h.pump_ok
      · exact h.not_crashed
      · exact h.actions_eq
    · cases hs
  · cases hs

theorem fwdQuit_inv {s s1 : Sys} (h : Inv s) (hs : fwdQuit s = some s1) : Inv s1 := by
  unfold fwdQuit at hs
  split at hs
  · rename_i hf
    split at hs
    · cases hs
      have he := h.enqueued_eq
      rw [hf] at he
      constructor
      · exact h.called_eq
      · simpa [FwdPc.held] using he
      · exact h.delivered_eq
      · exact h.received_eq
      · exact h.closed_eq
      · exact h.chans
      · exact h.pump_ok
      · exact h.not_crashed
      · exact h.actions_eq
    · cases hs
  · cases hs

theorem closeQuit_inv {s s1 : Sys} (h : Inv s) (hs : closeQuit s = some s1) : Inv s1 := by
  unfold closeQuit at hs
  split at hs
  · cases hs
  · cases hs
    exact ⟨h.called_eq, h.enqueued_eq, h.delivered_eq, h.received_eq, h.closed_eq, h.chans,
      h.pump_ok, h.not_crashed, h.actions_eq⟩

theorem consRecv_inv {s s1 : Sys} (h : Inv s) (hs : consRecv s = some s1) : Inv s1 := by
  unfold consRecv at hs
  split at hs
  · rename_i c rest hc hq
    cases hs
    have hd := h.delivered_eq
    have hr := h.received_eq
    have ha := h.actions_eq
    rw [hq] at hd
    rw [hc] at hr ha
    constructor
    · exact h.called_eq
    · exact h.enqueued_eq
    · simpa using hd
    · simpa [ConsPc.held] using hr
    · exact h.closed_eq
    · exact h.chans
    · exact h.pump_ok
    · simp
    · simpa [inProgress] using ha
  · cases hs

theorem consSwitch_inv (os : OS) {s s1 : Sys} (h : Inv s) (hs : consSwitch os s = some s1) :
    Inv s1 := by
  unfold consSwitch at hs
  split at hs
  · rename_i c hc
    have hr := h.received_eq
    have ha := h.actions_eq
    rw [hc] at hr ha
    split at hs
    · rename_i hlogon
      cases hs
      have hd : decision c = [] := by
        simp [decision, hlogon, WTS_SESSION_LOGON, WTS_SESSION_UNLOCK]
      constructor
      · exact h.called_eq
      · exact h.enqueued_eq
      · exact h.delivered_eq
      · simpa [ConsPc.held] using hr
      · exact h.closed_eq
      · exact h.chans
      · exact h.pump_ok
      · simp
      · simpa [inProgress, hd] using ha
    · split at hs
      · rename_i hunlock
        cases hs
        have hd : decision c = [Action.run "a_program.exe"] := by simp [decision, hunlock]
        constructor
        · exact h.called_eq
        · exact h.enqueued_eq
        · exact h.delivered_eq
        · simpa [ConsPc.held, Run_main_not_panicked] using hr
        · exact h.closed_eq
        · exact h.chans
        · exact h.pump_ok
        · simp [Run_main_not_panicked]
        · simp [inProgress, hd, Run_main_not_panicked, ha]
      · rename_i hunlock
        cases hs
        have hd : decision c = [] := by simp [decision, hunlock]
        constructor
        · exact h.called_eq
        · exact h.enqueued_eq
        · exact h.delivered_eq
        · simpa [ConsPc.held] using hr
        · exact h.closed_eq
        · exact h.chans
        · exact h.pump_ok
        · simp
        · simpa [inProgress, hd] using ha
  · cases hs

theorem consClose_inv {s s1 : Sys} (h : Inv s) (hs : consClose s = some s1) : Inv s1 := by
  unfold consClose at hs
  split at hs
  · rename_i c hc
    have hr := h.received_eq
    have ha := h.actions_eq
    have hdec := h.called_decomp
    rw [hc] at hr ha hdec
    simp only [ConsPc.held, List.append_assoc, List.singleton_append] at hdec
    have hopen : c.ChanOk ∉ s.closed := h.last_open hdec
    rw [if_neg hopen] at hs
    cases hs
    have hen : s.enqueued = s.handled ++ [c] := by
      have he : s.enqueued = s.handled ++ (c :: (s.changes ++ (s.fwd.held ++ s.chanMessages))) := by
        rw [h.enqueued_eq, h.delivered_eq, hr]
        simp [ConsPc.held]
      rcases h.pump_ok with h1 | ⟨m, _, hm⟩
      · rw [h1] at he
        have hl := congrArg List.length he
        simp at hl
      · rw [hm] at he
        have hl := List.append_cancel_left he
        simp only [List.cons.injEq] at hl
        rw [hm, hl.1]
    constructor
    · simpa [hc] using h.called_eq
    · exact h.enqueued_eq
    · exact h.delivered_eq
    · simpa [ConsPc.held] using hr
    · simp [h.closed_eq]
    · exact h.chans
    · exact Or.inl hen
    · simp
    · simp [inProgress, handling, ha, List.flatMap_append]
  · cases hs

/-- Every enabled step keeps the invariant. -/
theorem step_inv (os : OS) (l : Label) {s s1 : Sys} (h : Inv s) (hs : step os l s = some s1) :
    Inv s1 := by
  cases l
  · exact pumpCall_inv h hs
  · exact pumpSend_inv h hs
  · exact pumpAck_inv h hs
  · exact fwdRecv_inv h hs
  · exact fwdSend_inv h hs
  · exact fwdQuit_inv h hs
  · exact consRecv_inv h hs
  · exact consSwitch_inv os h hs
  · exact consClose_inv h hs
  · exact closeQuit_inv h hs

/-- Every state the system reaches has the invariant. -/
theorem exec_inv (os : OS) (sched : List Label) :
    ∀ {s s1 : Sys}, Inv s → exec os sched s = some s1 → Inv s1 := by
  induction sched with
  | nil =>
    intro s s1 h hs
    simp only [exec, Option.some.injEq] at hs
    exact hs ▸ h
  | cons l rest ih =>
    intro s s1 h hs
    unfold exec at hs
    split at hs
    · rename_i s2 h2
      exact ih (step_inv os l h h2) hs
    · cases hs

theorem closes_append (a b : List Action) : closes (a ++ b) = closes a ++ closes b := by
  induction a with
  | nil => rfl
  | cons x a ih => cases x <;> simp [closes, ih]

theorem runs_append (a b : List Action) : runs (a ++ b) = runs a + runs b := by
  induction a with
  | nil => simp [runs]
  | cons x a ih =>
    cases x <;> simp [runs, ih]
    omega

theorem closes_decision (c : Message) : closes (decision c) = [] := by
  unfold decision
  split <;> rfl

theorem closes_handled (ms : List Message) :
    closes (ms.flatMap handling) = ms.map Message.ChanOk := by
  induction ms with
  | nil => rfl
  | cons c ms ih =>
    rw [List.flatMap_cons, closes_append, ih]
    simp [handling, closes_append, closes, closes_decision]

theorem closes_inProgress (pc : ConsPc) : closes (inProgress pc) = [] := by
  cases pc <;> simp [inProgress, closes, closes_append, closes_decision]

theorem runs_handling (c : Message) :
    runs (handling c) = if c.WParam = WTS_SESSION_UNLOCK then 1 else 0 := by
  unfold handling decision
  split <;> simp [runs]

theorem enumerations_append (t u : List Event) :
    enumerations (t ++ u) = enumerations t + enumerations u := by
  induction t with
  | nil => simp [enumerations]
  | cons e t ih =>
    cases e <;> simp [enumerations, ih]
    omega

theorem broker_enumerations (os : OS) (sid : Nat) (t : List Event) :
    enumerations (duplicateUserTokenFromSessionID os sid t).2 = enumerations t := by
  unfold duplicateUserTokenFromSessionID
  simp only []
  split
  · simp [enumerations_append, enumerations]
  · split
    · simp [enumerations_append, enumerations]
    · split <;> simp [enumerations_append, enumerations]

theorem createProcess_enumerations (os : OS) (app cmd wd : String) (s : RunState) :
    enumerations (createProcess os app cmd wd s).trace = enumerations s.trace := by
  rcases createProcess_cases os app cmd wd s with ⟨_, h⟩ | h
  · rw [h]
  · rw [h]
    unfold afterCreateProcess
    split <;> simp [enumerations_append, enumerations]

theorem launchSession_enumerations (os : OS) (app cmd wd : String) (sid : Nat)
    (s : RunState) :
    enumerations (launchSession os app cmd wd sid s).trace = enumerations s.trace := by
  unfold launchSession
  simp only []
  split
  · simp [enumerations_append, enumerations, broker_enumerations]
  · split
    · simp [enumerations_append, enumerations, broker_enumerations]
    · rw [createProcess_enumerations]
      simp [enumerations_append, enumerations, broker_enumerations]

theorem launchLoop_enumerations (os : OS) (app cmd wd : String) (ids : List Nat) :
    ∀ s : RunState,
      enumerations (launchLoop os app cmd wd ids s).trace = enumerations s.trace := by
  induction ids with
  | nil => intro s; simp [launchLoop]
  | cons sid rest ih =>
    intro s
    unfold launchLoop
    simp only []
    split
    · exact launchSession_enumerations os app cmd wd sid s
    · rw [ih, launchSession_enumerations]

theorem resolve_enumerations (os : OS) (t : List Event) :
    enumerations (getCurrentUserSessionId os t).2 = enumerations t + 1 := by
  by_cases hok : (os.WTSEnumerateSessionsW t).returnCode = 0
  · rw [getCurrentUserSessionId_of_enum_fail os t hok]
    simp [enumerations_append, enumerations]
  · rw [getCurrentUserSessionId_of_enum_ok os t hok]
    unfold consoleSession
    simp only []
    split <;> simp [enumerations_append, enumerations]

/-- Every run of the launch pipeline makes exactly one enumeration call. -/
theorem Run_enumerations (os : OS) (path : String) (t : List Event) :
    enumerations (Run os path t).trace = enumerations t + 1 := by
  unfold Run startProcessAsCurrentUser
  simp only []
  rw [launchLoop_enumerations]
  split <;> simp [enumerations_append, enumerations, resolve_enumerations]

theorem pipelineRuns_append (os : OS) (ms : List Message) (c : Message) :
    ∀ t : List Event, pipelineRuns os (ms ++ [c]) t =
      if c.WParam = WTS_SESSION_UNLOCK then
        (Run os "a_program.exe" (pipelineRuns os ms t)).trace
      else pipelineRuns os ms t := by
  induction ms with
  | nil => intro t; simp [pipelineRuns]
  | cons m ms ih => intro t; simp [pipelineRuns, ih]

theorem pipelineRuns_enumerations (os : OS) (ms : List Message) :
    ∀ t : List Event,
      enumerations (pipelineRuns os ms t) = enumerations t + unlocks ms := by
  induction ms with
  | nil => intro t; simp [pipelineRuns, unlocks]
  | cons m ms ih =>
    intro t
    simp only [pipelineRuns, unlocks, ih]
    split
    · rw [Run_enumerations]; omega
    · omega

theorem unlocks_append (a b : List Message) : unlocks (a ++ b) = unlocks a + unlocks b := by
  induction a with
  | nil => simp [unlocks]
  | cons m a ih => simp [unlocks, ih]; omega

theorem runs_handled (ms : List Message) : runs (ms.flatMap handling) = unlocks ms := by
  induction ms with
  | nil => rfl
  | cons c ms ih =>
    rw [List.flatMap_cons, runs_append, ih, runs_handling]
    simp [unlocks]

theorem runs_inProgress (pc : ConsPc) : runs (inProgress pc) = unlocks (decided pc) := by
  cases pc with
  | receiving => rfl
  | switching c => simp [inProgress, decided, runs, unlocks]
  | closing c =>
    simp only [inProgress, decided, unlocks, runs_append, runs]
    unfold decision
    split <;> simp [runs]
  | crashed => rfl

/-- What the `switch` of `main` does to the history of native calls: for a
session unlock it becomes the history after one run of `execuser.Run`, and for
any other event it stays as it is; either way `main` stands at the close
next. -/
theorem consSwitch_osTrace (os : OS) (s : Sys) (c : Message)
    (hc : s.cons = ConsPc.switching c) :
    ∃ s1, consSwitch os s = some s1 ∧ s1.cons = ConsPc.closing c ∧
      s1.handled = s.handled ∧
      s1.osTrace =
        if c.WParam = WTS_SESSION_UNLOCK then (Run os "a_program.exe" s.osTrace).trace
        else s.osTrace := by
  unfold consSwitch
  rw [hc]
  simp only []
  by_cases hl : c.WParam = WTS_SESSION_LOGON
  · have hu : ¬ c.WParam = WTS_SESSION_UNLOCK := by
      rw [hl]; decide
    refine ⟨{ s with cons := ConsPc.closing c }, ?_, rfl, rfl, ?_⟩
    · rw [if_pos hl]
    · simp [hu]
  · by_cases hu : c.WParam = WTS_SESSION_UNLOCK
    · refine ⟨{ s with
          osTrace := (Run os "a_program.exe" s.osTrace).trace,
          actions := s.actions ++ [Action.run "a_program.exe"],
          cons := ConsPc.closing c }, ?_, rfl, rfl, ?_⟩
      · rw [if_neg hl, if_pos hu]
        simp [Run_main_not_panicked]
      · simp [hu]
    · refine ⟨{ s with cons := ConsPc.closing c }, ?_, rfl, rfl, ?_⟩
      · rw [if_neg hl, if_neg hu]
      · simp [hu]

/-- Every enabled step keeps the history of native calls equal to the one in
which `execuser.Run` has run once for each session unlock decided so far. -/
theorem step_osTrace (os : OS) (l : Label) (t0 : List Event) {s s1 : Sys} (hi : Inv s)
    (h : s.osTrace = pipelineRuns os (s.handled ++ decided s.cons) t0)
    (hs : step os l s = some s1) :
    s1.osTrace = pipelineRuns os (s1.handled ++ decided s1.cons) t0 := by
  cases l
  · simp only [step, pumpCall] at hs
    split at hs
    · cases hs; exact h
    · cases hs
  · simp only [step, pumpSend] at hs
    split at hs
    · split at hs
      · cases hs; exact h
      · cases hs
    · cases hs
  · simp only [step, pumpAck] at hs
    split at hs
    · split at hs
      · cases hs; exact h
      · cases hs
    · cases hs
  · simp only [step, fwdRecv] at hs
    split at hs
    · cases hs; exact h
    · cases hs
  · simp only [step, fwdSend] at hs
    split at hs
    · split at hs
      · cases hs; exact h
      · cases hs
    · cases hs
  · simp only [step, fwdQuit] at hs
    split at hs
    · split at hs
      · cases hs; exact h
      · cases hs
    · cases hs
  · simp only [step, consRecv] at hs
    split at hs
    · rename_i c rest hc hq
      cases hs
      rw [hc] at h
      simpa [decided] using h
    · cases hs
  · simp only [step] at hs
    cases hc : s.cons with
    | switching c =>
      obtain ⟨s2, h2, hcons, hhand, htr⟩ := consSwitch_osTrace os s c hc
      rw [h2] at hs
      cases hs
      rw [hcons, hhand, htr, h, hc]
      simp only [decided, List.append_nil]
      rw [pipelineRuns_append]
    | receiving => simp [consSwitch, hc] at hs
    | closing c => simp [consSwitch, hc] at hs
    | crashed => simp [consSwitch, hc] at hs
  · simp only [step, consClose] at hs
    split at hs
    · rename_i c hc
      have hdec := hi.called_decomp
      rw [hc] at hdec h
      simp only [ConsPc.held, List.append_assoc, List.singleton_append] at hdec
      have hopen : c.ChanOk ∉ s.closed := hi.last_open hdec
      rw [if_neg hopen] at hs
      cases hs
      simpa [decided] using h
    · cases hs
  · simp only [step, closeQuit] at hs
    split at hs
    · cases hs
    · cases hs; exact h

theorem exec_osTrace (os : OS) (t0 : List Event) (sched : List Label) :
    ∀ {s s1 : Sys}, Inv s →
      s.osTrace = pipelineRuns os (s.handled ++ decided s.cons) t0 →
      exec os sched s = some s1 →
      s1.osTrace = pipelineRuns os (s1.handled ++ decided s1.cons) t0 := by
  induction sched with
  | nil =>
    intro s s1 _ h hs
    simp only [exec, Option.some.injEq] at hs
    exact hs ▸ h
  | cons l rest ih =>
    intro s s1 hi h hs
    unfold exec at hs
    split at hs
    · rename_i s2 h2
      exact ih (step_inv os l hi h2) (step_osTrace os l t0 hi h h2) hs
    · cases hs

theorem init_osTrace (os : OS) (pending : List (Nat × Nat × Nat)) :
    (Sys.init os pending).osTrace =
      pipelineRuns os ((Sys.init os pending).handled ++ decided (Sys.init os pending).cons)
        (Run os "a_program.exe" []).trace := by
  simp [Sys.init, Run_main_not_panicked, decided, pipelineRuns]

/-- C8: in every state the program reaches, the goroutine of `main` has not
panicked, and its actions are, event after event in the order received, the
receive of the event, then one call of `execuser.Run` if the event's `WParam`
is `WTS_SESSION_UNLOCK` and none if it is `WTS_SESSION_LOGON` or anything
else, then the close of the event's `ChanOk`, followed only by the part done
so far for the event in hand; so each handled event's channel is closed
exactly once, after the decision and before the next receive.  The history
of native calls is the one left by the run at startup followed by one run of
`execuser.Run` for each session unlock decided so far and by nothing else: the
number of pipeline runs started is one more than the number of those unlocks,
and equals one more than the number of `Run` actions of `main`; the `switch`
step itself runs `Run` for an unlock and leaves the history alone otherwise. -/
theorem C8_consumer_actions (os : OS) (pending : List (Nat × Nat × Nat))
    (sched : List Label) (s : Sys)
    (hs : exec os sched (Sys.init os pending) = some s) :
    s.cons ≠ ConsPc.crashed ∧
    s.received = s.handled ++ s.cons.held ∧
    s.actions = s.handled.flatMap handling ++ inProgress s.cons ∧
    (∀ c : Message, handling c =
      [Action.recv c] ++
      (if c.WParam = WTS_SESSION_UNLOCK then [Action.run "a_program.exe"] else []) ++
      [Action.close c.ChanOk]) ∧
    (∀ c : Message, runs (handling c) = if c.WParam = WTS_SESSION_UNLOCK then 1 else 0) ∧
    (∀ c : Message, c.WParam = WTS_SESSION_LOGON → runs (handling c) = 0) ∧
    closes s.actions = s.handled.map Message.ChanOk ∧
    (∀ c ∈ s.handled, (closes s.actions).count c.ChanOk = 1) ∧
    s.osTrace = pipelineRuns os (s.handled ++ decided s.cons) (Run os "a_program.exe" []).trace ∧
    enumerations s.osTrace = 1 + unlocks (s.handled ++ decided s.cons) ∧
    enumerations s.osTrace = 1 + runs s.actions ∧
    (∀ c : Message, s.cons = ConsPc.switching c →
      ∃ s1, step os Label.consSwitch s = some s1 ∧ s1.cons = ConsPc.closing c ∧
        s1.osTrace =
          (if c.WParam = WTS_SESSION_UNLOCK then (Run os "a_program.exe" s.osTrace).trace
           else s.osTrace) ∧
        enumerations s1.osTrace =
          enumerations s.osTrace + (if c.WParam = WTS_SESSION_UNLOCK then 1 else 0)) := by
  have h := exec_inv os sched (Inv_init os pending) hs
  have htr := exec_osTrace os (Run os "a_program.exe" []).trace sched (Inv_init os pending)
    (init_osTrace os pending) hs
  have hcl : closes s.actions = s.handled.map Message.ChanOk := by
    rw [h.actions_eq, closes_append, closes_handled, closes_inProgress, List.append_nil]
  have hnd : (s.handled.map Message.ChanOk).Nodup := by
    have hn := h.nodup
    rw [h.called_decomp] at hn
    simp only [List.append_assoc, List.map_append] at hn
    exact (List.nodup_append.1 hn).1
  have hen : enumerations s.osTrace = 1 + unlocks (s.handled ++ decided s.cons) := by
    rw [htr, pipelineRuns_enumerations, Run_enumerations]
    simp [enumerations]
  refine ⟨h.not_crashed, h.received_eq, h.actions_eq, fun c => rfl, runs_handling, ?_, hcl, ?_,
    htr, hen, ?_, ?_⟩
  · intro c hc
    rw [runs_handling, hc]
    decide
  · intro c hc
    rw [hcl]
    exact List.count_eq_one_of_mem hnd (List.mem_map_of_mem _ hc)
  · rw [hen, h.actions_eq, runs_append, runs_handled, runs_inProgress, unlocks_append]
  · intro c hc
    obtain ⟨s1, h1, hcons, _, ht⟩ := consSwitch_osTrace os s c hc
    refine ⟨s1, h1, hcons, ht, ?_⟩
    rw [ht]
    split
    · rw [Run_enumerations]
    · rfl

/-- Witness of `C8_consumer_actions`: a session unlock and then a session
logon are each carried through a round trip; `main` runs the pipeline once,
for the unlock, and closes each channel once; with the run at startup the
history holds two pipeline runs. -/
theorem C8_consumer_actions_witness :
    ∃ s, exec osAllOk (roundTrip ++ roundTrip)
        (Sys.init osAllOk [(0x2B1, 0x8, 1), (0x2B1, 0x5, 1)]) = some s ∧
      s.actions =
        [Action.recv { UMsg := 0x2B1, WParam := 0x8, LParam := 1, ChanOk := 0 },
         Action.run "a_program.exe", Action.close 0,
         Action.recv { UMsg := 0x2B1, WParam := 0x5, LParam := 1, ChanOk := 1 },
         Action.close 1] ∧
      enumerations s.osTrace = 2 ∧
      s.osTrace = (Run osAllOk "a_program.exe" (Run osAllOk "a_program.exe" []).trace).trace ∧
      closes s.actions = s.handled.map Message.ChanOk ∧
      enumerations s.osTrace = 1 + runs s.actions :=
  ⟨_, rfl, by decide, by decide, by decide,
    (C8_consumer_actions osAllOk [(0x2B1, 0x8, 1), (0x2B1, 0x5, 1)] (roundTrip ++ roundTrip)
      _ rfl).2.2.2.2.2.2.1,
    (C8_consumer_actions osAllOk [(0x2B1, 0x8, 1), (0x2B1, 0x5, 1)] (roundTrip ++ roundTrip)
      _ rfl).2.2.2.2.2.2.2.2.2.2.1⟩

/-- An enqueued event is acknowledged, or it is the one the pump is blocked
on. -/
theorem Inv.acknowledged_or_waiting {s : Sys} (h : Inv s) :
    ∀ m ∈ s.enqueued, m.ChanOk ∈ s.closed ∨ s.pump = PumpPc.waiting m := by
  intro m hm
  rw [h.closed_eq]
  rcases h.pump_ok with h1 | ⟨m0, hw, h1⟩
  · rw [h1] at hm
    exact Or.inl (List.mem_map_of_mem _ hm)
  · rw [h1] at hm
    rcases List.mem_append.1 hm with hm | hm
    · exact Or.inl (List.mem_map_of_mem _ hm)
    · rw [List.mem_singleton.1 hm]
      exact Or.inr hw

theorem Inv.unacknowledged_le_one {s : Sys} (h : Inv s) : (unacknowledged s).length ≤ 1 := by
  have hnil : s.handled.filter (fun m => decide (m.ChanOk ∉ s.closed)) = [] := by
    rw [List.filter_eq_nil_iff]
    intro m hm
    simp [h.closed_eq]
    exact ⟨m, hm, rfl⟩
  unfold unacknowledged
  rcases h.pump_ok with h1 | ⟨m0, _, h1⟩
  · rw [h1, hnil]
    simp
  · rw [h1, List.filter_append, hnil, List.nil_append]
    exact le_trans (List.length_filter_le _ _) (by simp)

/-- C10: in every state the program reaches: the acknowledgment channels of
the messages built by `relayMessage` are pairwise different; the messages
sent on the internal queue are those built, one per call and in call order,
the last one missing only while its call stands before the send; an event
whose channel is not yet closed is the one the pump is blocked on, so
`relayMessage` has returned, and the pump takes the next message, only when
every earlier event is acknowledged; at most one event is enqueued and not
acknowledged; and the events sent to the subscriber's channel are, in the
same order, an initial part of those enqueued. -/
theorem C10_pump_waits_for_acknowledgment (os : OS) (pending : List (Nat × Nat × Nat))
    (sched : List Label) (s : Sys)
    (hs : exec os sched (Sys.init os pending) = some s) :
    (s.called.map Message.ChanOk).Nodup ∧
    s.called = s.enqueued ++ s.pump.unsent ∧
    (∀ m ∈ s.enqueued, m.ChanOk ∈ s.closed ∨ s.pump = PumpPc.waiting m) ∧
    (s.pump = PumpPc.idle → ∀ m ∈ s.called, m.ChanOk ∈ s.closed) ∧
    (∀ m, s.pump = PumpPc.made m → ∀ m1 ∈ s.enqueued, m1.ChanOk ∈ s.closed) ∧
    (unacknowledged s).length ≤ 1 ∧
    s.enqueued <+: s.called ∧
    s.delivered <+: s.enqueued ∧
    s.received <+: s.delivered := by
  have h := exec_inv os sched (Inv_init os pending) hs
  refine ⟨h.nodup, h.called_eq, h.acknowledged_or_waiting, ?_, ?_, h.unacknowledged_le_one,
    ?_, ?_, ?_⟩
  · intro hp m hm
    have hc := h.called_eq
    rw [hp] at hc
    simp only [PumpPc.unsent, List.append_nil] at hc
    rw [hc] at hm
    rcases h.acknowledged_or_waiting m hm with h1 | h1
    · exact h1
    · rw [hp] at h1
      cases h1
  · intro m hp m1 hm
    rcases h.acknowledged_or_waiting m1 hm with h1 | h1
    · exact h1
    · rw [hp] at h1
      cases h1
  · rw [h.called_eq]
    exact List.prefix_append _ _
  · rw [h.enqueued_eq, List.append_assoc]
    exact List.prefix_append _ _
  · rw [h.delivered_eq]
    exact List.prefix_append _ _

/-- Witness of `C10_pump_waits_for_acknowledgment`: after one round trip and
the sending of a second event, the second event is the only one not
acknowledged and the pump is blocked on it. -/
theorem C10_pump_waits_for_acknowledgment_witness :
    ∃ s, exec osAllOk (roundTrip ++ [Label.pumpCall, Label.pumpSend])
        (Sys.init osAllOk [(0x2B1, 0x8, 1), (0x2B1, 0x5, 1)]) = some s ∧
      unacknowledged s = [{ UMsg := 0x2B1, WParam := 0x5, LParam := 1, ChanOk := 1 }] ∧
      (unacknowledged s).length ≤ 1 :=
  ⟨_, rfl, by decide,
    (C10_pump_waits_for_acknowledgment osAllOk [(0x2B1, 0x8, 1), (0x2B1, 0x5, 1)]
      (roundTrip ++ [Label.pumpCall, Label.pumpSend]) _ rfl).2.2.2.2.2.1⟩

/-- The blocking steps of `relayMessage`, evaluated: the pump cannot return
before `main` has closed the channel, and cannot take a second message while
it waits; after the close it can. -/
theorem pump_blocked_until_close :
    (exec osAllOk [Label.pumpCall, Label.pumpSend, Label.pumpAck]
      (Sys.init osAllOk [(0x2B1, 0x8, 1), (0x2B1, 0x5, 1)])).isSome = false ∧
    (exec osAllOk [Label.pumpCall, Label.pumpSend, Label.pumpCall]
      (Sys.init osAllOk [(0x2B1, 0x8, 1), (0x2B1, 0x5, 1)])).isSome = false ∧
    (exec osAllOk [Label.pumpCall, Label.pumpSend, Label.fwdRecv, Label.fwdSend,
        Label.consRecv, Label.consSwitch, Label.pumpAck]
      (Sys.init osAllOk [(0x2B1, 0x8, 1), (0x2B1, 0x5, 1)])).isSome = false ∧
    (exec osAllOk (roundTrip ++ [Label.pumpCall])
      (Sys.init osAllOk [(0x2B1, 0x8, 1), (0x2B1, 0x5, 1)])).isSome = true := by
  decide

end ExecAsUser
